import Mathlib

/-!
Verification of the SC3ML inventory normalizer (check_inventory.py).

The development shallowly embeds the tool's element tree and its
normalization pass.  Python strings are Lean strings restricted to the
ASCII fragment the tool manipulates (digits, signs, letters, XML
punctuation); Python float values are modeled exactly as sign-carrying
rational numbers (an integer numerator with a natural denominator) plus
the special values inf, -inf and nan, which is faithful for the decimal
literals and the single division the program performs on the inputs
exercised here.
-/

namespace SC3

/-- Python str.strip whitespace set (ASCII fragment). -/
def isPySpace (c : Char) : Bool :=
  c = ' ' ∨ c = '\t' ∨ c = '\n' ∨ c = '\x0d' ∨ c = '\x0b' ∨ c = '\x0c'

/-- Both-ends whitespace strip on character lists. -/
def stripChars (l : List Char) : List Char :=
  ((l.dropWhile isPySpace).reverse.dropWhile isPySpace).reverse

/-- Python str.strip. -/
def pyStrip (s : String) : String := String.mk (stripChars s.data)

/-- Characters after the first closing brace (Python tag.split with
maxsplit 1, second component). -/
def afterBrace : List Char → List Char
  | [] => []
  | c :: r => if c = '}' then r else afterBrace r

/-- Characters up to and including the first closing brace. -/
def upToBrace : List Char → List Char
  | [] => []
  | c :: r => if c = '}' then [c] else c :: upToBrace r

def lowerChars (l : List Char) : List Char := l.map Char.toLower

/-- Local (namespace-stripped, lower-cased) tag name; embeds the
source's function named local. -/
def localName (t : String) : String :=
  if t.data.contains '}' then String.mk (lowerChars (afterBrace t.data))
  else String.mk (lowerChars t.data)

/-- Namespace part of a tag, including the closing brace, or empty;
the namespace ensure_child copies onto a created child. -/
def childNS (t : String) : String :=
  if t.data.contains '}' then String.mk (upToBrace t.data) else ""

/-! ## Python float model -/

/-- A Python float (an IEEE-754 binary64 value): the exact rational
value of a finite double (numerator over positive denominator, not
necessarily reduced), the negative zero, or one of the special values.
Positive zero is finite 0 d; nzero is the distinct -0.0, which compares
equal to zero but formats with a minus sign. -/
inductive PyFloat where
  | finite (n : Int) (d : Nat)
  | nzero
  | inf
  | ninf
  | nan
deriving DecidableEq, Repr

/-- Round an exact rational n over d (d positive) to the nearest
integer, ties to even: the rounding CPython applies both in binary64
arithmetic (on the scaled mantissa) and in fixed-point formatting. -/
def roundHalfEven (n : Int) (d : Nat) : Int :=
  let q := Int.fdiv n (d : Int)
  let r := n - q * (d : Int)
  if 2 * r < (d : Int) then q
  else if (d : Int) < 2 * r then q + 1
  else if 2 ∣ q then q else q + 1

/-- 2 to an integer power, as a numerator over a positive denominator. -/
def pow2 : Int → Nat × Nat
  | Int.ofNat k => (2 ^ k, 1)
  | Int.negSucc k => (1, 2 ^ (k + 1))

/-- Floor of the base-2 logarithm of a positive natural: the number of
halvings needed to reach 1, with the first argument as fuel. -/
def natLog2F : Nat → Nat → Nat
  | 0, _ => 0
  | fuel + 1, n => if n ≤ 1 then 0 else natLog2F fuel (n / 2) + 1

/-- Floor of the base-2 logarithm of the positive rational a over b.
With la and lb the integer logarithms, a/b lies in (2^(la-lb-1),
2^(la-lb+1)), so the floor is la-lb or la-lb-1; one comparison against
2^(la-lb) settles which. -/
def ratLog2 (a b : Nat) : Int :=
  let cand : Int := (natLog2F a a : Int) - (natLog2F b b : Int)
  if b * (pow2 cand).1 ≤ a * (pow2 cand).2 then cand else cand - 1

/-- a over b divided by 2 to the p, as a numerator over a positive
denominator: the quantity whose nearest integer is the mantissa at the
grid of spacing 2^p. -/
def scaleAt (a b : Nat) (p : Int) : Nat × Nat :=
  match p with
  | Int.ofNat k => (a, b * 2 ^ k)
  | Int.negSucc k => (a * 2 ^ (k + 1), b)

/-- IEEE-754 binary64 rounding (round to nearest, ties to even) of the
rational with magnitude a over b (b positive) and the given sign.  The
mantissa is the nearest integer at the grid 2^p with p the floor
binary exponent minus 52, floored at -1074 (gradual underflow to the
subnormal range); a carry to 2^53 moves one binade up; a rounded
magnitude at or above 2^1024 overflows to an infinity, and a mantissa
of 0 underflows to a zero carrying the sign.  CPython's float() and
float division are correctly rounded, which this realizes on exact
rational inputs. -/
def roundDbl (sign : Bool) (a b : Nat) : PyFloat :=
  if a = 0 then (if sign then PyFloat.nzero else PyFloat.finite 0 1)
  else
    let p : Int := max (ratLog2 a b - 52) (-1074)
    let s := scaleAt a b p
    let m0 := (roundHalfEven (s.1 : Int) s.2).toNat
    let mp : Nat × Int := if m0 = 2 ^ 53 then (2 ^ 52, p + 1) else (m0, p)
    if mp.1 = 0 then (if sign then PyFloat.nzero else PyFloat.finite 0 1)
    else
      match mp.2 with
      | Int.ofNat k =>
        if 2 ^ 1024 ≤ mp.1 * 2 ^ k then (if sign then PyFloat.ninf else PyFloat.inf)
        else PyFloat.finite (if sign then -((mp.1 * 2 ^ k : Nat) : Int)
                             else ((mp.1 * 2 ^ k : Nat) : Int)) 1
      | Int.negSucc k =>
        PyFloat.finite (if sign then -(mp.1 : Int) else (mp.1 : Int)) (2 ^ (k + 1))

/-- Scan a run of decimal digits with single underscores permitted
between digits, accumulating the digits seen so far (reversed). -/
def digitsTail (acc : List Char) : List Char → List Char × List Char
  | [] => (acc.reverse, [])
  | c :: r =>
    if c.isDigit then digitsTail (c :: acc) r
    else if c = '_' then
      match r with
      | d :: r2 => if d.isDigit then digitsTail (d :: acc) r2 else (acc.reverse, c :: r)
      | [] => (acc.reverse, [c])
    else (acc.reverse, c :: r)

/-- Parse a nonempty digit run (Python's digitpart); returns the digits
and the unconsumed remainder. -/
def takeDigits : List Char → Option (List Char × List Char)
  | c :: r => if c.isDigit then some (digitsTail [c] r) else none
  | [] => none

def readSign : List Char → Bool × List Char
  | [] => (false, [])
  | c :: r =>
    if c = '+' then (false, r)
    else if c = '-' then (true, r)
    else (false, c :: r)

def natOfDigits (ds : List Char) : Nat :=
  ds.foldl (fun a c => a * 10 + (c.toNat - 48)) 0

/-- Components of a finite Python float literal. -/
structure FinLit where
  ip : List Char
  fp : List Char
  esign : Bool
  ed : List Char
deriving DecidableEq, Repr

/-- Parse the optional exponent of a float literal; the remainder must
be empty for the literal to be accepted. -/
def parseExp (ip fp : List Char) : List Char → Option FinLit
  | [] => some ⟨ip, fp, false, []⟩
  | e :: r =>
    if e = 'e' ∨ e = 'E' then
      let sr := readSign r
      match takeDigits sr.2 with
      | some (ed, []) => some ⟨ip, fp, sr.1, ed⟩
      | _ => none
    else none

/-- Parse an unsigned finite float literal (CPython grammar: optional
integer part, optional point and fraction, at least one mantissa digit,
optional exponent, underscores between digits). -/
def parseFinite (l : List Char) : Option FinLit :=
  let ipr := match takeDigits l with
             | some p => p
             | none => ([], l)
  match ipr.2 with
  | '.' :: r2 =>
    let fpr := match takeDigits r2 with
               | some p => p
               | none => ([], r2)
    if ipr.1 = [] ∧ fpr.1 = [] then none
    else parseExp ipr.1 fpr.1 fpr.2
  | _ => if ipr.1 = [] then none else parseExp ipr.1 [] ipr.2

/-- Exact magnitude of a finite literal as a numerator over a positive
denominator, before binary64 rounding. -/
def finLitMag (fl : FinLit) : Nat × Nat :=
  let l := fl.fp.length
  let mant : Nat := natOfDigits fl.ip * 10 ^ l + natOfDigits fl.fp
  let e := natOfDigits fl.ed
  if fl.esign then (mant, 10 ^ l * 10 ^ e)
  else (mant * 10 ^ e, 10 ^ l)

/-- Binary64 value of a signed finite literal: CPython's float() is
correctly rounded, so the result is the exact literal value rounded to
the nearest double, overflowing to an infinity and underflowing to a
zero that keeps the literal's sign. -/
def finLitVal (neg : Bool) (fl : FinLit) : PyFloat :=
  roundDbl neg (finLitMag fl).1 (finLitMag fl).2

/-- CPython float(s): strip whitespace, optional sign, then a finite
literal or an infinity or NaN spelling (case-insensitive). -/
def pyFloatParse (s : String) : Option PyFloat :=
  let l := stripChars s.data
  let sr := readSign l
  match parseFinite sr.2 with
  | some fl => some (finLitVal sr.1 fl)
  | none =>
    let low := lowerChars sr.2
    if low = "inf".data ∨ low = "infinity".data then
      some (if sr.1 then PyFloat.ninf else PyFloat.inf)
    else if low = "nan".data then some PyFloat.nan
    else none

/-- Embeds is_float: float(s) succeeds. -/
def is_float (s : String) : Bool := (pyFloatParse s).isSome

/-- Value of float(s) where parsing is known to succeed (callers guard
with is_float, mirroring the source). -/
def pyFloatVal (s : String) : PyFloat :=
  (pyFloatParse s).getD (PyFloat.finite 0 1)

/-- Embeds norm_num_or_default. -/
def norm_num_or_default (s : String) (default : String) : String :=
  if is_float s then s else default

/-- Python x != 0.0 on a float value: both zeros compare equal to zero,
NaN and the infinities compare unequal. -/
def pyNe0 : PyFloat → Bool
  | PyFloat.finite n _ => n ≠ 0
  | PyFloat.nzero => false
  | _ => true

/-- Python float division; none models the ZeroDivisionError raised on
a zero divisor (CPython raises for any numerator, including 0.0, the
infinities and NaN).  A finite quotient is the exact ratio correctly
rounded to binary64; zero results carry the IEEE sign (the xor of the
operand signs), as does the finite-over-infinity case. -/
def pyDivOpt : PyFloat → PyFloat → Option PyFloat
  | _, PyFloat.finite 0 _ => none
  | _, PyFloat.nzero => none
  | PyFloat.nan, _ => some PyFloat.nan
  | _, PyFloat.nan => some PyFloat.nan
  | PyFloat.inf, PyFloat.inf => some PyFloat.nan
  | PyFloat.inf, PyFloat.ninf => some PyFloat.nan
  | PyFloat.ninf, PyFloat.inf => some PyFloat.nan
  | PyFloat.ninf, PyFloat.ninf => some PyFloat.nan
  | PyFloat.inf, PyFloat.finite c _ => some (if 0 < c then PyFloat.inf else PyFloat.ninf)
  | PyFloat.ninf, PyFloat.finite c _ => some (if 0 < c then PyFloat.ninf else PyFloat.inf)
  | PyFloat.finite a _, PyFloat.inf =>
    some (if a < 0 then PyFloat.nzero else PyFloat.finite 0 1)
  | PyFloat.finite a _, PyFloat.ninf =>
    some (if a < 0 then PyFloat.finite 0 1 else PyFloat.nzero)
  | PyFloat.nzero, PyFloat.inf => some PyFloat.nzero
  | PyFloat.nzero, PyFloat.ninf => some (PyFloat.finite 0 1)
  | PyFloat.nzero, PyFloat.finite c _ =>
    some (if 0 < c then PyFloat.nzero else PyFloat.finite 0 1)
  | PyFloat.finite a b, PyFloat.finite c d =>
    some (roundDbl (decide (a < 0) != decide (c < 0)) (a.natAbs * d) (b * c.natAbs))

def digitChar (n : Nat) : Char := Char.ofNat (48 + n)

/-- Decimal digits of a natural number, most significant first; fuel is
an upper bound on the number of divisions. -/
def natToDigitsAux : Nat → Nat → List Char → List Char
  | 0, _, acc => acc
  | fuel + 1, n, acc =>
    if n < 10 then digitChar n :: acc
    else natToDigitsAux fuel (n / 10) (digitChar (n % 10) :: acc)

def natToDigits (n : Nat) : List Char := natToDigitsAux (n + 1) n []

/-- Fixed-width 6-digit rendering with leading zeros. -/
def pad6 (n : Nat) : List Char :=
  List.replicate (6 - (natToDigits n).length) '0' ++ natToDigits n

/-- Python format with 6 digits after the point (the f-string spec
.6f): the double's exact value rounded half-even at the sixth decimal,
with the sign kept even when the digits round to zero (CPython prints
-0.000000 for tiny negative values and for the negative zero). -/
def fmt6 : PyFloat → String
  | PyFloat.nan => "nan"
  | PyFloat.inf => "inf"
  | PyFloat.ninf => "-inf"
  | PyFloat.nzero => "-0.000000"
  | PyFloat.finite n d =>
    let m := roundHalfEven (n * 1000000) d
    let sgn := if n < 0 then "-" else ""
    sgn ++ String.mk (natToDigits (m.natAbs / 1000000)) ++ "." ++
      String.mk (pad6 (m.natAbs % 1000000))

/-! ## Element tree (xml.etree Element: tag, ordered attributes,
optional text, ordered children) -/

inductive Element where
  | mk (tag : String) (attrib : List (String × String)) (text : Option String)
       (children : List Element)

def Element.tag : Element → String
  | Element.mk t _ _ _ => t

def Element.attrib : Element → List (String × String)
  | Element.mk _ a _ _ => a

def Element.text : Element → Option String
  | Element.mk _ _ x _ => x

def Element.children : Element → List Element
  | Element.mk _ _ _ cs => cs

/-- Attribute lookup (dict get). -/
def getAttr : List (String × String) → String → Option String
  | [], _ => none
  | p :: r, k => if p.1 = k then some p.2 else getAttr r k

/-- Attribute update: replace in place or append (dict set on an
insertion-ordered mapping). -/
def setAttr : List (String × String) → String → String → List (String × String)
  | [], k, v => [(k, v)]
  | p :: r, k, v => if p.1 = k then (k, v) :: r else p :: setAttr r k v

def Element.setAttrV (e : Element) (k v : String) : Element :=
  Element.mk e.tag (setAttr e.attrib k v) e.text e.children

def Element.withText (e : Element) (x : Option String) : Element :=
  Element.mk e.tag e.attrib x e.children

/-- First element of a list with the given local tag name. -/
def findChild (nm : String) : List Element → Option Element
  | [] => none
  | c :: r => if localName c.tag = nm then some c else findChild nm r

/-- Embeds get_child: first child by local name. -/
def get_child (e : Element) (nm : String) : Option Element :=
  findChild nm e.children

/-- Embeds get_child_text. -/
def get_child_text (e : Element) (nm : String) : String :=
  match get_child e nm with
  | some c => pyStrip (c.text.getD "")
  | none => ""

/-- Set the text of the first child with the given local name, creating
the child with the parent's namespace when absent; the composition of
the source's ensure_child with the text assignment that always follows
it. -/
def setTextFirst (ns : String) (nm v : String) : List Element → List Element
  | [] => [Element.mk (ns ++ nm) [] (some v) []]
  | c :: r => if localName c.tag = nm then c.withText (some v) :: r
              else c :: setTextFirst ns nm v r

def setFirstChildText (e : Element) (nm v : String) : Element :=
  Element.mk e.tag e.attrib e.text (setTextFirst (childNS e.tag) nm v e.children)

/-- Set an attribute only when its current value differs, reporting
whether a change was made (the sta.set pattern in the source). -/
def setIfDiff (e : Element) (k v : String) : Element × Bool :=
  if getAttr e.attrib k = some v then (e, false) else (e.setAttrV k v, true)

/-- Raw value resolution: attribute first (empty counts as absent via
Python truthiness), then the same-named child's trimmed text, the whole
then stripped. -/
def resolveRaw (e : Element) (k : String) : String :=
  pyStrip (if (getAttr e.attrib k).getD "" = "" then get_child_text e k
           else (getAttr e.attrib k).getD "")

/-- Promote a code attribute from a code child when the attribute is
absent or empty and the child text is nonempty; shared by the network,
sensorlocation and stream levels of the source. -/
def promoteCode (e : Element) : Element :=
  if getAttr e.attrib "code" = none ∨ getAttr e.attrib "code" = some "" then
    if get_child_text e "code" = "" then e
    else e.setAttrV "code" (get_child_text e "code")
  else e

/-- The coerced replacement value of one geographic field of a
station. -/
def coercedVal (s : Element) (k : String) : String :=
  norm_num_or_default (resolveRaw s k) "0.0"

/-- The three conditional attribute writes of
force_station_numeric_attrs, with the combined change flag; the three
values are computed on the original station before any write. -/
def attr3 (s : Element) : Element × Bool :=
  let r1 := setIfDiff s "latitude" (coercedVal s "latitude")
  let r2 := setIfDiff r1.1 "longitude" (coercedVal s "longitude")
  let r3 := setIfDiff r2.1 "elevation" (coercedVal s "elevation")
  (r3.1, r1.2 || r2.2 || r3.2)

/-- The three child mirrors of force_station_numeric_attrs. -/
def mirror3 (s : Element) (lv lov ev : String) : Element :=
  setFirstChildText (setFirstChildText (setFirstChildText s "latitude" lv)
    "longitude" lov) "elevation" ev

/-- The final code-attribute promotion of force_station_numeric_attrs,
which also raises the change flag when it fires. -/
def stationCode (s : Element) (changed : Bool) : Element × Bool :=
  if getAttr s.attrib "code" = none ∨ getAttr s.attrib "code" = some "" then
    if get_child_text s "code" = "" then (s, changed)
    else (s.setAttrV "code" (get_child_text s "code"), true)
  else (s, changed)

/-- Embeds force_station_numeric_attrs. -/
def force_station_numeric_attrs (sta : Element) : Element × Bool :=
  stationCode
    (mirror3 (attr3 sta).1 (coercedVal sta "latitude") (coercedVal sta "longitude")
      (coercedVal sta "elevation"))
    (attr3 sta).2

/-- Ensure a child exists and has numeric text, defaulting to 0.0 (the
azimuth and dip handling in fix_stream). -/
def fixNumChild (e : Element) (nm : String) : Element :=
  match get_child e nm with
  | some c => if is_float (pyStrip (c.text.getD "")) then e
              else setFirstChildText e nm "0.0"
  | none => setFirstChildText e nm "0.0"

/-- Numerator for the derived sample rate: 1.0 when missing or
non-numeric. -/
def streamFNum (e : Element) : PyFloat :=
  if is_float (get_child_text e "sampleratenumerator") then
    pyFloatVal (get_child_text e "sampleratenumerator")
  else PyFloat.finite 1 1

/-- Denominator for the derived sample rate: 1.0 when missing,
non-numeric or zero. -/
def streamFDen (e : Element) : PyFloat :=
  if is_float (get_child_text e "sampleratedenominator") = true ∧
     pyNe0 (pyFloatVal (get_child_text e "sampleratedenominator")) = true then
    pyFloatVal (get_child_text e "sampleratedenominator")
  else PyFloat.finite 1 1

/-- Derived sample rate with the try/except fallback to 1.0. -/
def streamVal (e : Element) : PyFloat :=
  (pyDivOpt (streamFNum e) (streamFDen e)).getD (PyFloat.finite 1 1)

/-- The sampleRate derivation step of fix_stream: keep an existing
numeric sampleRate child, otherwise write the derived rate. -/
def srStep (e : Element) : Element :=
  match get_child e "samplerate" with
  | some sr => if is_float (pyStrip (sr.text.getD "")) then e
               else setFirstChildText e "samplerate" (fmt6 (streamVal e))
  | none => setFirstChildText e "samplerate" (fmt6 (streamVal e))

/-- Embeds fix_stream. -/
def fix_stream (stream : Element) : Element :=
  promoteCode (srStep (fixNumChild (fixNumChild stream "azimuth") "dip"))

/-- The stream has no sampleRate child with numeric text, so the pass
derives the rate from the numerator and denominator children. -/
def noNumericSR (e : Element) : Bool :=
  match get_child e "samplerate" with
  | some c => !is_float (pyStrip (c.text.getD ""))
  | none => true

/-- Follows the claim's wording, not the source: a numeric literal of
the form optional sign, digits, optional decimal point and fraction,
optional exponent; stated for comparison with the source's is_float. -/
def specNumericForm (s : String) : Bool :=
  let sr := readSign s.data
  let d1 := sr.2.span Char.isDigit
  let m :=
    match d1.2 with
    | '.' :: r2 =>
      let d2 := r2.span Char.isDigit
      (!(d1.1.isEmpty && d2.1.isEmpty), d2.2)
    | _ => (!d1.1.isEmpty, d1.2)
  m.1 &&
    (match m.2 with
     | [] => true
     | e :: r =>
       if e = 'e' ∨ e = 'E' then
         (!(readSign r).2.isEmpty) && (readSign r).2.all Char.isDigit
       else false)

/-! ## Traversal

The source walks the document with root.iter() looking for elements of
local name network, then processes direct station children, and (with
channel fixing) their sensorlocation children and stream
grandchildren.  The embedding passes each node the role of its parent
chain and applies the per-node effects; node effects read and write
only attribute values, lat/lon/ele, azimuth/dip/samplerate and code
children of the node itself, which the recursion into subtrees never
alters, so processing children before the node's own fix coincides
with the source's parent-first iteration order. -/

inductive Ctx where
  | other
  | net
  | sta
  | sl
deriving DecidableEq, Repr

/-- Context of a child of a node with tag t and context p. -/
def childCtx (p : Ctx) (t : String) : Ctx :=
  if localName t = "network" then Ctx.net
  else if p = Ctx.net ∧ localName t = "station" then Ctx.sta
  else if p = Ctx.sta ∧ localName t = "sensorlocation" then Ctx.sl
  else Ctx.other

/-- The per-node mutation of the main loop. -/
def nodeFix (p : Ctx) (fixCh : Bool) (e : Element) : Element :=
  if localName e.tag = "network" then promoteCode e
  else if p = Ctx.net ∧ localName e.tag = "station" then
    (force_station_numeric_attrs e).1
  else if fixCh = true ∧ p = Ctx.sta ∧ localName e.tag = "sensorlocation" then
    promoteCode e
  else if fixCh = true ∧ p = Ctx.sl ∧ localName e.tag = "stream" then
    fix_stream e
  else e

mutual

/-- The whole normalization pass over the tree. -/
def processTree (fixCh : Bool) (p : Ctx) : Element → Element
  | Element.mk t a x cs =>
    nodeFix p fixCh (Element.mk t a x (processList fixCh (childCtx p t) cs))

def processList (fixCh : Bool) (q : Ctx) : List Element → List Element
  | [] => []
  | c :: r => processTree fixCh q c :: processList fixCh q r

end

/-- Counters maintained by the main loop. -/
structure Counts where
  total : Nat
  fixed : Nat
  streams : Nat
deriving DecidableEq, Repr

def Counts.add (x y : Counts) : Counts :=
  ⟨x.total + y.total, x.fixed + y.fixed, x.streams + y.streams⟩

mutual

/-- The counters the run reports, computed over the tree the pass
visits. -/
def countTree (fixCh : Bool) (p : Ctx) : Element → Counts
  | Element.mk t a x cs =>
    let node : Counts :=
      if p = Ctx.net ∧ localName t = "station" then
        ⟨1, if (force_station_numeric_attrs (Element.mk t a x cs)).2 then 1 else 0, 0⟩
      else if fixCh = true ∧ p = Ctx.sl ∧ localName t = "stream" then ⟨0, 0, 1⟩
      else ⟨0, 0, 0⟩
    Counts.add node (countList fixCh (childCtx p t) cs)

def countList (fixCh : Bool) (q : Ctx) : List Element → Counts
  | [] => ⟨0, 0, 0⟩
  | c :: r => Counts.add (countTree fixCh q c) (countList fixCh q r)

end

/-- The three geographic attributes exist and parse as floats. -/
def stationAttrsOK (a : List (String × String)) : Bool :=
  (match getAttr a "latitude" with | some v => is_float v | none => false) &&
  (match getAttr a "longitude" with | some v => is_float v | none => false) &&
  (match getAttr a "elevation" with | some v => is_float v | none => false)

mutual

/-- Every station that is a direct child of a network (anywhere in the
tree) satisfies stationAttrsOK; the flag records whether the node's
parent is a network. -/
def allStationsOK (underNet : Bool) : Element → Bool
  | Element.mk t a _ cs =>
    (if underNet = true ∧ localName t = "station" then stationAttrsOK a else true) &&
    allStationsOKList (localName t = "network" : Bool) cs

def allStationsOKList (underNet : Bool) : List Element → Bool
  | [] => true
  | c :: r => allStationsOK underNet c && allStationsOKList underNet r

end

mutual

/-- Structural equivalence up to namespace and case of tags: equal
attributes and text everywhere, equal local names, pairwise equivalent
children. -/
def tagEquiv : Element → Element → Bool
  | Element.mk t1 a1 x1 cs1, Element.mk t2 a2 x2 cs2 =>
    (localName t1 = localName t2 : Bool) && (a1 = a2 : Bool) &&
    (x1 = x2 : Bool) && tagEquivList cs1 cs2

def tagEquivList : List Element → List Element → Bool
  | [], [] => true
  | c1 :: r1, c2 :: r2 => tagEquiv c1 c2 && tagEquivList r1 r2
  | _, _ => false

end

/-! ## Verification & reporting phase -/

/-- One example record: network code, station code, and the three
stripped attribute values. -/
def exRecord (netCode : String) (a : List (String × String)) :
    String × String × String × String × String :=
  (netCode, (getAttr a "code").getD "",
   pyStrip ((getAttr a "latitude").getD ""),
   pyStrip ((getAttr a "longitude").getD ""),
   pyStrip ((getAttr a "elevation").getD ""))

/-- The validity check the verification pass applies, from attributes
only. -/
def staCheck (a : List (String × String)) : Bool :=
  is_float (pyStrip ((getAttr a "latitude").getD "")) &&
  is_float (pyStrip ((getAttr a "longitude").getD "")) &&
  is_float (pyStrip ((getAttr a "elevation").getD ""))

abbrev VState := Nat × Option (String × String × String × String × String)

/-- Scan the direct station children of one network, accumulating the
bad count and the first valid example. -/
def verifyStations (netCode : String) : VState → List Element → VState
  | s, [] => s
  | s, Element.mk t a _ _ :: r =>
    if localName t = "station" then
      if staCheck a then
        verifyStations netCode
          (s.1, if s.2 = none then some (exRecord netCode a) else s.2) r
      else verifyStations netCode (s.1 + 1, s.2) r
    else verifyStations netCode s r

mutual

/-- The whole verification scan over the re-loaded output tree. -/
def verifyE (s : VState) : Element → VState
  | Element.mk t a _ cs =>
    verifyList
      (if localName t = "network" then
        verifyStations ((getAttr a "code").getD "") s cs
       else s) cs

def verifyList (s : VState) : List Element → VState
  | [] => s
  | c :: r => verifyList (verifyE s c) r

end

mutual

/-- Declarative view of the scan: the (network code, station attribute
list) pairs in visit order. -/
def stationPairs : Element → List (String × List (String × String))
  | Element.mk t a _ cs =>
    (if localName t = "network" then
      stationChildren ((getAttr a "code").getD "") cs
     else []) ++ stationPairsList cs

def stationChildren (netCode : String) : List Element → List (String × List (String × String))
  | [] => []
  | Element.mk t a _ _ :: r =>
    (if localName t = "station" then [(netCode, a)] else []) ++ stationChildren netCode r

def stationPairsList : List Element → List (String × List (String × String))
  | [] => []
  | c :: r => stationPairs c ++ stationPairsList r

end

mutual

/-- Replace every text field in the tree (used to state that the
verification pass ignores text). -/
def textMap (f : Option String → Option String) : Element → Element
  | Element.mk t a x cs => Element.mk t a (f x) (textMapList f cs)

def textMapList (f : Option String → Option String) : List Element → List Element
  | [] => []
  | c :: r => textMap f c :: textMapList f r

end

/-! ## Control flow of main, as an effect trace -/

inductive MainEvent where
  | errorExit (msg : String)
  | parseAttempt
  | wroteOutput (doc : Element)
  | printedSummary (c : Counts) (v : VState)

/-- The observable behavior of main: the input either does not exist,
fails to parse (none), or parses to a document; returns the events in
order and the process exit status. -/
def runMain (inputExists : Bool) (parsed : Option Element) (fixCh : Bool) :
    List MainEvent × Nat :=
  if inputExists = false then ([MainEvent.errorExit "Input not found"], 1)
  else
    match parsed with
    | none => ([MainEvent.parseAttempt], 1)
    | some doc =>
      let out := processTree fixCh Ctx.other doc
      ([MainEvent.parseAttempt, MainEvent.wroteOutput out,
        MainEvent.printedSummary (countTree fixCh Ctx.other doc) (verifyE (0, none) out)], 0)

/-! ## Concrete documents used as test inputs -/

/-- Station whose latitude attribute is the NaN spelling. -/
def exStaNan : Element :=
  Element.mk "station" [("latitude", "nan"), ("longitude", "1.0"), ("elevation", "2.0")] none []

/-- Stream with an infinite numerator and no sampleRate child. -/
def exStreamInf : Element :=
  Element.mk "stream" [] none
    [Element.mk "sampleRateNumerator" [] (some "inf") [],
     Element.mk "sampleRateDenominator" [] (some "1") []]

/-- Stream with a zero denominator and no sampleRate child. -/
def exStreamDen0 : Element :=
  Element.mk "stream" [] none
    [Element.mk "sampleRateNumerator" [] (some "100") [],
     Element.mk "sampleRateDenominator" [] (some "0") []]

/-- Stream with numerator 100 and denominator 1 and no sampleRate
child. -/
def exStream7 : Element :=
  Element.mk "stream" [] none
    [Element.mk "sampleRateNumerator" [] (some "100") [],
     Element.mk "sampleRateDenominator" [] (some "1") []]

/-- Document whose station tag carries a namespace and upper case. -/
def exDocNs : Element :=
  Element.mk "seiscomp" [] none
    [Element.mk "network" [("code", "XX")] none
      [Element.mk "\x7bhttp://example/ns\x7dSTATION" [("latitude", "abc")] none []]]

/-- The same document with an unprefixed lowercase station tag. -/
def exDocPlain : Element :=
  Element.mk "seiscomp" [] none
    [Element.mk "network" [("code", "XX")] none
      [Element.mk "station" [("latitude", "abc")] none []]]

/-- Station with only attribute values, no children. -/
def exSta6 : Element :=
  Element.mk "station" [("latitude", "7.5")] none []

/-- Station whose three geographic attributes are present but empty,
with children carrying the values. -/
def exSta10 : Element :=
  Element.mk "station"
    [("latitude", ""), ("longitude", ""), ("elevation", "")] none
    [Element.mk "latitude" [] (some "45.5") [],
     Element.mk "longitude" [] (some "16.0") [],
     Element.mk "elevation" [] (some "x") []]

/-- A tiny parsed document for the exit-status claim. -/
def exDoc9 : Element := Element.mk "seiscomp" [] none []

/-! # Lemmas -/

/-- Structural induction for the nested element tree. -/
theorem Element.induct (P : Element → Prop)
    (h : ∀ t a x cs, (∀ c ∈ cs, P c) → P (Element.mk t a x cs)) : ∀ e, P e := by
  have key : ∀ n (e : Element), sizeOf e ≤ n → P e := by
    intro n
    induction n with
    | zero =>
      intro e he
      cases e with
      | mk t a x cs =>
        simp only [Element.mk.sizeOf_spec] at he
        omega
    | succ n ih =>
      intro e he
      cases e with
      | mk t a x cs =>
        refine h t a x cs (fun c hc => ih c ?_)
        have h1 := List.sizeOf_lt_of_mem hc
        simp only [Element.mk.sizeOf_spec] at he
        omega
  exact fun e => key (sizeOf e) e (Nat.le_refl _)

/-! ## String facts -/

theorem dropWhile_self {α : Type} (p : α → Bool) (l : List α) :
    (l.dropWhile p).dropWhile p = l.dropWhile p := by
  induction l with
  | nil => rfl
  | cons c r ih =>
    by_cases hc : p c
    · simp [List.dropWhile_cons, hc, ih]
    · simp [List.dropWhile_cons, hc]

theorem head?_dropWhile_false {α : Type} (p : α → Bool) (l : List α) :
    ∀ c, (l.dropWhile p).head? = some c → p c = false := by
  induction l with
  | nil => intro c hc; simp at hc
  | cons a r ih =>
    intro c hc
    by_cases ha : p a
    · rw [List.dropWhile_cons, if_pos ha] at hc
      exact ih c hc
    · rw [List.dropWhile_cons, if_neg ha] at hc
      simp only [List.head?_cons, Option.some.injEq] at hc
      subst hc
      exact Bool.not_eq_true _ |>.mp ha

theorem dropWhile_eq_self_of_head? {α : Type} (p : α → Bool) (l : List α)
    (h : ∀ c, l.head? = some c → p c = false) : l.dropWhile p = l := by
  cases l with
  | nil => rfl
  | cons a r =>
    rw [List.dropWhile_cons, if_neg]
    simp [h a rfl]

theorem getLast?_dropWhile {α : Type} (p : α → Bool) (l : List α)
    (h : l.dropWhile p ≠ []) : (l.dropWhile p).getLast? = l.getLast? := by
  conv_rhs => rw [← List.takeWhile_append_dropWhile p l]
  rw [List.getLast?_append]
  cases hx : (l.dropWhile p).getLast? with
  | none =>
    exact absurd (List.getLast?_eq_none_iff.mp hx) h
  | some c => rfl

theorem stripChars_idem (l : List Char) : stripChars (stripChars l) = stripChars l := by
  unfold stripChars
  have step1 : ((((l.dropWhile isPySpace).reverse.dropWhile isPySpace).reverse).dropWhile isPySpace)
      = ((l.dropWhile isPySpace).reverse.dropWhile isPySpace).reverse := by
    apply dropWhile_eq_self_of_head?
    intro c hc
    rw [List.head?_reverse] at hc
    have hne : (l.dropWhile isPySpace).reverse.dropWhile isPySpace ≠ [] := by
      intro hemp
      rw [hemp] at hc
      simp at hc
    rw [getLast?_dropWhile _ _ hne, List.getLast?_reverse] at hc
    exact head?_dropWhile_false _ _ c hc
  rw [step1, List.reverse_reverse, dropWhile_self]

theorem pyStrip_idem (s : String) : pyStrip (pyStrip s) = pyStrip s := by
  unfold pyStrip
  rw [show (String.mk (stripChars s.data)).data = stripChars s.data from rfl, stripChars_idem]

theorem is_float_empty : is_float "" = false := by decide

theorem is_float_default : is_float "0.0" = true := by decide

theorem is_float_ne_empty {s : String} (h : is_float s = true) : s ≠ "" := by
  intro he
  subst he
  rw [is_float_empty] at h
  exact Bool.false_ne_true h

/-- A numeric-or-default value is never the empty string. -/
theorem norm_ne_empty (s : String) : norm_num_or_default s "0.0" ≠ "" := by
  unfold norm_num_or_default
  by_cases h : is_float s = true
  · rw [if_pos h]; exact is_float_ne_empty h
  · rw [if_neg h]; intro hc; exact absurd (congrArg String.data hc) (by decide)

/-- The coerced value always parses as a float. -/
theorem is_float_norm (s : String) : is_float (norm_num_or_default s "0.0") = true := by
  unfold norm_num_or_default
  by_cases h : is_float s = true
  · rw [if_pos h]; exact h
  · rw [if_neg h]; exact is_float_default

/-! ## Local-name facts -/

theorem afterBrace_upToBrace (m : List Char) :
    ∀ l : List Char, l.contains '}' = true → afterBrace (upToBrace l ++ m) = m := by
  intro l
  induction l with
  | nil => intro h; simp [List.contains] at h
  | cons c r ih =>
    intro h
    by_cases hc : c = '}'
    · subst hc
      simp [upToBrace, afterBrace]
    · have h' : r.contains '}' = true := by
        simp only [List.contains_cons, Bool.or_eq_true, beq_iff_eq] at h
        rcases h with h | h
        · exact absurd h.symm hc
        · exact h
      simp [upToBrace, afterBrace, hc, ih h']

theorem contains_upToBrace_append (m : List Char) :
    ∀ l : List Char, l.contains '}' = true → (upToBrace l ++ m).contains '}' = true := by
  intro l
  induction l with
  | nil => intro h; simp [List.contains] at h
  | cons c r ih =>
    intro h
    by_cases hc : c = '}'
    · subst hc
      simp [upToBrace]
    · have h' : r.contains '}' = true := by
        simp only [List.contains_cons, Bool.or_eq_true, beq_iff_eq] at h
        rcases h with h | h
        · exact absurd h.symm hc
        · exact h
      rw [show upToBrace (c :: r) = c :: upToBrace r from by simp [upToBrace, hc]]
      rw [List.cons_append, List.contains_cons, ih h', Bool.or_true]

theorem localName_childNS_append (t nm : String) (h : nm.data.contains '}' = false) :
    localName (childNS t ++ nm) = localName nm := by
  unfold childNS localName
  by_cases ht : t.data.contains '}' = true
  · rw [if_pos ht]
    have hdata : (String.mk (upToBrace t.data) ++ nm).data = upToBrace t.data ++ nm.data := rfl
    rw [hdata, if_pos (contains_upToBrace_append _ _ ht),
        afterBrace_upToBrace _ _ ht, if_neg (by rw [h]; exact Bool.false_ne_true)]
  · rw [if_neg ht]
    have hdata : (("" : String) ++ nm).data = nm.data := by simp
    rw [hdata]

/-! ## Element projections -/

@[simp] theorem tag_mk (t : String) (a : List (String × String)) (x : Option String)
    (cs : List Element) : (Element.mk t a x cs).tag = t := rfl

@[simp] theorem attrib_mk (t : String) (a : List (String × String)) (x : Option String)
    (cs : List Element) : (Element.mk t a x cs).attrib = a := rfl

@[simp] theorem text_mk (t : String) (a : List (String × String)) (x : Option String)
    (cs : List Element) : (Element.mk t a x cs).text = x := rfl

@[simp] theorem children_mk (t : String) (a : List (String × String)) (x : Option String)
    (cs : List Element) : (Element.mk t a x cs).children = cs := rfl

@[simp] theorem withText_tag (e : Element) (x : Option String) : (e.withText x).tag = e.tag := by
  cases e; rfl

@[simp] theorem withText_attrib (e : Element) (x : Option String) :
    (e.withText x).attrib = e.attrib := by cases e; rfl

@[simp] theorem withText_text (e : Element) (x : Option String) : (e.withText x).text = x := by
  cases e; rfl

@[simp] theorem withText_children (e : Element) (x : Option String) :
    (e.withText x).children = e.children := by cases e; rfl

@[simp] theorem setAttrV_tag (e : Element) (k v : String) : (e.setAttrV k v).tag = e.tag := by
  cases e; rfl

@[simp] theorem setAttrV_attrib (e : Element) (k v : String) :
    (e.setAttrV k v).attrib = setAttr e.attrib k v := by cases e; rfl

@[simp] theorem setAttrV_text (e : Element) (k v : String) : (e.setAttrV k v).text = e.text := by
  cases e; rfl

@[simp] theorem setAttrV_children (e : Element) (k v : String) :
    (e.setAttrV k v).children = e.children := by cases e; rfl

/-! ## Attribute lookup and update -/

theorem getAttr_setAttr_self (a : List (String × String)) (k v : String) :
    getAttr (setAttr a k v) k = some v := by
  induction a with
  | nil => simp [setAttr, getAttr]
  | cons p r ih =>
    by_cases hp : p.1 = k
    · simp [setAttr, hp, getAttr]
    · simp [setAttr, hp, getAttr, ih]

theorem getAttr_setAttr_other (a : List (String × String)) (k v k' : String) (h : k' ≠ k) :
    getAttr (setAttr a k v) k' = getAttr a k' := by
  induction a with
  | nil =>
    simp only [setAttr, getAttr]
    rw [if_neg (fun he => h he.symm)]
  | cons p r ih =>
    by_cases hp : p.1 = k
    · subst hp
      simp only [setAttr, if_pos rfl, getAttr]
      rw [if_neg (fun he => h he.symm), if_neg (fun he => h he.symm)]
    · simp only [setAttr, if_neg hp, getAttr, ih]

theorem setIfDiff_getAttr_self (e : Element) (k v : String) :
    getAttr (setIfDiff e k v).1.attrib k = some v := by
  unfold setIfDiff
  by_cases h : getAttr e.attrib k = some v
  · rw [if_pos h]; exact h
  · rw [if_neg h]; simp [getAttr_setAttr_self]

theorem setIfDiff_getAttr_other (e : Element) (k v k' : String) (h : k' ≠ k) :
    getAttr (setIfDiff e k v).1.attrib k' = getAttr e.attrib k' := by
  unfold setIfDiff
  by_cases hd : getAttr e.attrib k = some v
  · rw [if_pos hd]
  · rw [if_neg hd]; simp [getAttr_setAttr_other _ _ _ _ h]

@[simp] theorem setIfDiff_tag (e : Element) (k v : String) : (setIfDiff e k v).1.tag = e.tag := by
  unfold setIfDiff; split <;> simp

@[simp] theorem setIfDiff_text (e : Element) (k v : String) :
    (setIfDiff e k v).1.text = e.text := by
  unfold setIfDiff; split <;> simp

@[simp] theorem setIfDiff_children (e : Element) (k v : String) :
    (setIfDiff e k v).1.children = e.children := by
  unfold setIfDiff; split <;> simp

/-- Setting an attribute to its current value changes nothing and
reports no change. -/
theorem setIfDiff_noop (e : Element) (k v : String) (h : getAttr e.attrib k = some v) :
    setIfDiff e k v = (e, false) := by
  unfold setIfDiff
  rw [if_pos h]

/-! ## First-child search and update -/

theorem findChild_setTextFirst_other (ns nm nm' v : String)
    (hadd : localName (ns ++ nm) ≠ nm') (hne : nm ≠ nm') (cs : List Element) :
    findChild nm' (setTextFirst ns nm v cs) = findChild nm' cs := by
  induction cs with
  | nil => simp [setTextFirst, findChild, hadd]
  | cons c r ih =>
    by_cases hc : localName c.tag = nm
    · rw [show setTextFirst ns nm v (c :: r) = c.withText (some v) :: r from by
        simp [setTextFirst, hc]]
      unfold findChild
      rw [withText_tag, hc, if_neg hne, if_neg (hc ▸ hne)]
    · rw [show setTextFirst ns nm v (c :: r) = c :: setTextFirst ns nm v r from by
        simp [setTextFirst, hc]]
      unfold findChild
      by_cases hc' : localName c.tag = nm'
      · rw [if_pos hc', if_pos hc']
      · rw [if_neg hc', if_neg hc', ih]

theorem findChild_setTextFirst_self (ns nm v : String)
    (hadd : localName (ns ++ nm) = nm) (cs : List Element) :
    ∃ c, findChild nm (setTextFirst ns nm v cs) = some c ∧ c.text = some v ∧
      (findChild nm cs = none → c = Element.mk (ns ++ nm) [] (some v) []) ∧
      (∀ c0, findChild nm cs = some c0 → c = c0.withText (some v)) := by
  induction cs with
  | nil =>
    refine ⟨Element.mk (ns ++ nm) [] (some v) [], ?_, rfl, fun _ => rfl, ?_⟩
    · simp [setTextFirst, findChild, hadd]
    · intro c0 hc0; simp [findChild] at hc0
  | cons c r ih =>
    by_cases hc : localName c.tag = nm
    · refine ⟨c.withText (some v), ?_, by simp, ?_, ?_⟩
      · rw [show setTextFirst ns nm v (c :: r) = c.withText (some v) :: r from by
          simp [setTextFirst, hc]]
        unfold findChild
        rw [withText_tag, if_pos hc]
      · intro hn; rw [show findChild nm (c :: r) = some c from by simp [findChild, hc]] at hn
        cases hn
      · intro c0 hc0
        rw [show findChild nm (c :: r) = some c from by simp [findChild, hc]] at hc0
        cases hc0; rfl
    · obtain ⟨d, hd1, hd2, hd3, hd4⟩ := ih
      refine ⟨d, ?_, hd2, ?_, ?_⟩
      · rw [show setTextFirst ns nm v (c :: r) = c :: setTextFirst ns nm v r from by
          simp [setTextFirst, hc]]
        unfold findChild
        rw [if_neg hc]
        exact hd1
      · intro hn
        rw [show findChild nm (c :: r) = findChild nm r from by simp [findChild, hc]] at hn
        exact hd3 hn
      · intro c0 hc0
        rw [show findChild nm (c :: r) = findChild nm r from by simp [findChild, hc]] at hc0
        exact hd4 c0 hc0

/-- Setting the first matching child's text to the value it already has
is a no-op. -/
theorem setTextFirst_noop (ns nm v : String) (cs : List Element) :
    ∀ c0, findChild nm cs = some c0 → c0.text = some v → setTextFirst ns nm v cs = cs := by
  induction cs with
  | nil => intro c0 hc0; simp [findChild] at hc0
  | cons c r ih =>
    intro c0 hc0 ht
    by_cases hc : localName c.tag = nm
    · rw [show findChild nm (c :: r) = some c from by simp [findChild, hc]] at hc0
      cases hc0
      rw [show setTextFirst ns nm v (c :: r) = c.withText (some v) :: r from by
        simp [setTextFirst, hc]]
      cases c with
      | mk t a x cs' =>
        simp only [text_mk] at ht
        rw [ht]; rfl
    · rw [show findChild nm (c :: r) = findChild nm r from by simp [findChild, hc]] at hc0
      rw [show setTextFirst ns nm v (c :: r) = c :: setTextFirst ns nm v r from by
        simp [setTextFirst, hc]]
      rw [ih c0 hc0 ht]

@[simp] theorem setFirstChildText_tag (e : Element) (nm v : String) :
    (setFirstChildText e nm v).tag = e.tag := by cases e; rfl

@[simp] theorem setFirstChildText_attrib (e : Element) (nm v : String) :
    (setFirstChildText e nm v).attrib = e.attrib := by cases e; rfl

@[simp] theorem setFirstChildText_text (e : Element) (nm v : String) :
    (setFirstChildText e nm v).text = e.text := by cases e; rfl

theorem setFirstChildText_children (e : Element) (nm v : String) :
    (setFirstChildText e nm v).children = setTextFirst (childNS e.tag) nm v e.children := by
  cases e; rfl

theorem get_child_setFirstChildText_other (e : Element) (nm nm' v : String)
    (hb : nm.data.contains '}' = false) (hl : localName nm = nm) (hne : nm ≠ nm') :
    get_child (setFirstChildText e nm v) nm' = get_child e nm' := by
  unfold get_child
  rw [setFirstChildText_children]
  exact findChild_setTextFirst_other _ _ _ _
    (by rw [localName_childNS_append _ _ hb, hl]; exact hne) hne _

theorem get_child_setFirstChildText_self (e : Element) (nm v : String)
    (hb : nm.data.contains '}' = false) (hl : localName nm = nm) :
    ∃ c, get_child (setFirstChildText e nm v) nm = some c ∧ c.text = some v ∧
      (get_child e nm = none → c = Element.mk (childNS e.tag ++ nm) [] (some v) []) ∧
      (∀ c0, get_child e nm = some c0 → c = c0.withText (some v)) := by
  unfold get_child
  rw [setFirstChildText_children]
  exact findChild_setTextFirst_self _ _ _
    (by rw [localName_childNS_append _ _ hb, hl]) _

theorem setFirstChildText_noop (e : Element) (nm v : String) (c0 : Element)
    (h : get_child e nm = some c0) (ht : c0.text = some v) :
    setFirstChildText e nm v = e := by
  cases e with
  | mk t a x cs =>
    have h' : findChild nm cs = some c0 := h
    unfold setFirstChildText
    simp only [tag_mk, attrib_mk, text_mk, children_mk]
    rw [setTextFirst_noop (childNS t) nm v cs c0 h' ht]

theorem get_child_text_congr (e e' : Element) (nm : String)
    (h : get_child e nm = get_child e' nm) : get_child_text e nm = get_child_text e' nm := by
  unfold get_child_text
  rw [h]

/-! ## Station-code promotion -/

theorem stationCode_getAttr_other (s : Element) (b : Bool) (k : String) (h : k ≠ "code") :
    getAttr (stationCode s b).1.attrib k = getAttr s.attrib k := by
  unfold stationCode
  split_ifs <;> simp [getAttr_setAttr_other _ _ _ _ h]

@[simp] theorem stationCode_tag (s : Element) (b : Bool) : (stationCode s b).1.tag = s.tag := by
  unfold stationCode
  split_ifs <;> simp

@[simp] theorem stationCode_text (s : Element) (b : Bool) : (stationCode s b).1.text = s.text := by
  unfold stationCode
  split_ifs <;> simp

@[simp] theorem stationCode_children (s : Element) (b : Bool) :
    (stationCode s b).1.children = s.children := by
  unfold stationCode
  split_ifs <;> simp

theorem get_child_stationCode (s : Element) (b : Bool) (nm : String) :
    get_child (stationCode s b).1 nm = get_child s nm := by
  unfold get_child
  rw [stationCode_children]

/-! ## The three attribute writes -/

theorem attr3_getAttr_lat (s : Element) :
    getAttr (attr3 s).1.attrib "latitude" = some (coercedVal s "latitude") := by
  unfold attr3
  rw [setIfDiff_getAttr_other _ _ _ _ (by decide), setIfDiff_getAttr_other _ _ _ _ (by decide),
      setIfDiff_getAttr_self]

theorem attr3_getAttr_lon (s : Element) :
    getAttr (attr3 s).1.attrib "longitude" = some (coercedVal s "longitude") := by
  unfold attr3
  rw [setIfDiff_getAttr_other _ _ _ _ (by decide), setIfDiff_getAttr_self]

theorem attr3_getAttr_ele (s : Element) :
    getAttr (attr3 s).1.attrib "elevation" = some (coercedVal s "elevation") := by
  unfold attr3
  rw [setIfDiff_getAttr_self]

theorem attr3_getAttr_other (s : Element) (k : String) (h1 : k ≠ "latitude")
    (h2 : k ≠ "longitude") (h3 : k ≠ "elevation") :
    getAttr (attr3 s).1.attrib k = getAttr s.attrib k := by
  unfold attr3
  rw [setIfDiff_getAttr_other _ _ _ _ h3, setIfDiff_getAttr_other _ _ _ _ h2,
      setIfDiff_getAttr_other _ _ _ _ h1]

@[simp] theorem attr3_tag (s : Element) : (attr3 s).1.tag = s.tag := by
  unfold attr3
  simp

@[simp] theorem attr3_text (s : Element) : (attr3 s).1.text = s.text := by
  unfold attr3
  simp

@[simp] theorem attr3_children (s : Element) : (attr3 s).1.children = s.children := by
  unfold attr3
  simp

theorem get_child_attr3 (s : Element) (nm : String) :
    get_child (attr3 s).1 nm = get_child s nm := by
  unfold get_child
  rw [attr3_children]

/-! ## The three child mirrors -/

@[simp] theorem mirror3_tag (s : Element) (lv lov ev : String) :
    (mirror3 s lv lov ev).tag = s.tag := by
  unfold mirror3
  simp

@[simp] theorem mirror3_attrib (s : Element) (lv lov ev : String) :
    (mirror3 s lv lov ev).attrib = s.attrib := by
  unfold mirror3
  simp

@[simp] theorem mirror3_text (s : Element) (lv lov ev : String) :
    (mirror3 s lv lov ev).text = s.text := by
  unfold mirror3
  simp

theorem get_child_mirror3_other (s : Element) (lv lov ev nm' : String)
    (h1 : nm' ≠ "latitude") (h2 : nm' ≠ "longitude") (h3 : nm' ≠ "elevation") :
    get_child (mirror3 s lv lov ev) nm' = get_child s nm' := by
  unfold mirror3
  rw [get_child_setFirstChildText_other _ _ _ _ (by decide) (by decide) (Ne.symm h3),
      get_child_setFirstChildText_other _ _ _ _ (by decide) (by decide) (Ne.symm h2),
      get_child_setFirstChildText_other _ _ _ _ (by decide) (by decide) (Ne.symm h1)]

theorem get_child_mirror3_lat (s : Element) (lv lov ev : String) :
    ∃ c, get_child (mirror3 s lv lov ev) "latitude" = some c ∧ c.text = some lv ∧
      (get_child s "latitude" = none → c.tag = childNS s.tag ++ "latitude") := by
  unfold mirror3
  rw [get_child_setFirstChildText_other _ _ _ _ (by decide) (by decide) (by decide),
      get_child_setFirstChildText_other _ _ _ _ (by decide) (by decide) (by decide)]
  obtain ⟨c, h1, h2, h3, _⟩ := get_child_setFirstChildText_self s "latitude" lv (by decide) (by decide)
  refine ⟨c, h1, h2, fun hn => ?_⟩
  rw [h3 hn, tag_mk]

theorem get_child_mirror3_lon (s : Element) (lv lov ev : String) :
    ∃ c, get_child (mirror3 s lv lov ev) "longitude" = some c ∧ c.text = some lov ∧
      (get_child s "longitude" = none → c.tag = childNS s.tag ++ "longitude") := by
  unfold mirror3
  rw [get_child_setFirstChildText_other _ _ _ _ (by decide) (by decide) (by decide)]
  obtain ⟨c, h1, h2, h3, _⟩ :=
    get_child_setFirstChildText_self (setFirstChildText s "latitude" lv) "longitude" lov
      (by decide) (by decide)
  refine ⟨c, h1, h2, fun hn => ?_⟩
  have hn' : get_child (setFirstChildText s "latitude" lv) "longitude" = none := by
    rw [get_child_setFirstChildText_other _ _ _ _ (by decide) (by decide) (by decide)]
    exact hn
  rw [h3 hn', tag_mk, setFirstChildText_tag]

theorem get_child_mirror3_ele (s : Element) (lv lov ev : String) :
    ∃ c, get_child (mirror3 s lv lov ev) "elevation" = some c ∧ c.text = some ev ∧
      (get_child s "elevation" = none → c.tag = childNS s.tag ++ "elevation") := by
  unfold mirror3
  obtain ⟨c, h1, h2, h3, _⟩ :=
    get_child_setFirstChildText_self
      (setFirstChildText (setFirstChildText s "latitude" lv) "longitude" lov) "elevation" ev
      (by decide) (by decide)
  refine ⟨c, h1, h2, fun hn => ?_⟩
  have hn' : get_child (setFirstChildText (setFirstChildText s "latitude" lv) "longitude" lov)
      "elevation" = none := by
    rw [get_child_setFirstChildText_other _ _ _ _ (by decide) (by decide) (by decide),
        get_child_setFirstChildText_other _ _ _ _ (by decide) (by decide) (by decide)]
    exact hn
  rw [h3 hn', tag_mk, setFirstChildText_tag, setFirstChildText_tag]

/-! ## force_station_numeric_attrs -/

theorem force_getAttr_lat (s : Element) :
    getAttr (force_station_numeric_attrs s).1.attrib "latitude" =
      some (coercedVal s "latitude") := by
  unfold force_station_numeric_attrs
  rw [stationCode_getAttr_other _ _ _ (by decide), mirror3_attrib, attr3_getAttr_lat]

theorem force_getAttr_lon (s : Element) :
    getAttr (force_station_numeric_attrs s).1.attrib "longitude" =
      some (coercedVal s "longitude") := by
  unfold force_station_numeric_attrs
  rw [stationCode_getAttr_other _ _ _ (by decide), mirror3_attrib, attr3_getAttr_lon]

theorem force_getAttr_ele (s : Element) :
    getAttr (force_station_numeric_attrs s).1.attrib "elevation" =
      some (coercedVal s "elevation") := by
  unfold force_station_numeric_attrs
  rw [stationCode_getAttr_other _ _ _ (by decide), mirror3_attrib, attr3_getAttr_ele]

@[simp] theorem force_tag (s : Element) :
    (force_station_numeric_attrs s).1.tag = s.tag := by
  unfold force_station_numeric_attrs
  rw [stationCode_tag, mirror3_tag, attr3_tag]

@[simp] theorem force_text (s : Element) :
    (force_station_numeric_attrs s).1.text = s.text := by
  unfold force_station_numeric_attrs
  rw [stationCode_text, mirror3_text, attr3_text]

theorem force_stationAttrsOK (s : Element) :
    stationAttrsOK (force_station_numeric_attrs s).1.attrib = true := by
  unfold stationAttrsOK
  rw [force_getAttr_lat, force_getAttr_lon, force_getAttr_ele]
  simp only [coercedVal, is_float_norm, Bool.and_self]

theorem force_getChild_lat (s : Element) :
    ∃ c, get_child (force_station_numeric_attrs s).1 "latitude" = some c ∧
      c.text = some (coercedVal s "latitude") ∧
      (get_child s "latitude" = none → c.tag = childNS s.tag ++ "latitude") := by
  unfold force_station_numeric_attrs
  rw [get_child_stationCode]
  obtain ⟨c, h1, h2, h3⟩ := get_child_mirror3_lat (attr3 s).1 (coercedVal s "latitude")
    (coercedVal s "longitude") (coercedVal s "elevation")
  refine ⟨c, h1, h2, fun hn => ?_⟩
  rw [h3 (by rw [get_child_attr3]; exact hn), attr3_tag]

theorem force_getChild_lon (s : Element) :
    ∃ c, get_child (force_station_numeric_attrs s).1 "longitude" = some c ∧
      c.text = some (coercedVal s "longitude") ∧
      (get_child s "longitude" = none → c.tag = childNS s.tag ++ "longitude") := by
  unfold force_station_numeric_attrs
  rw [get_child_stationCode]
  obtain ⟨c, h1, h2, h3⟩ := get_child_mirror3_lon (attr3 s).1 (coercedVal s "latitude")
    (coercedVal s "longitude") (coercedVal s "elevation")
  refine ⟨c, h1, h2, fun hn => ?_⟩
  rw [h3 (by rw [get_child_attr3]; exact hn), attr3_tag]

theorem force_getChild_ele (s : Element) :
    ∃ c, get_child (force_station_numeric_attrs s).1 "elevation" = some c ∧
      c.text = some (coercedVal s "elevation") ∧
      (get_child s "elevation" = none → c.tag = childNS s.tag ++ "elevation") := by
  unfold force_station_numeric_attrs
  rw [get_child_stationCode]
  obtain ⟨c, h1, h2, h3⟩ := get_child_mirror3_ele (attr3 s).1 (coercedVal s "latitude")
    (coercedVal s "longitude") (coercedVal s "elevation")
  refine ⟨c, h1, h2, fun hn => ?_⟩
  rw [h3 (by rw [get_child_attr3]; exact hn), attr3_tag]

theorem resolveRaw_stripped (s : Element) (k : String) :
    pyStrip (resolveRaw s k) = resolveRaw s k := by
  unfold resolveRaw
  exact pyStrip_idem _

theorem pyStrip_coercedVal (s : Element) (k : String) :
    pyStrip (coercedVal s k) = coercedVal s k := by
  unfold coercedVal norm_num_or_default
  by_cases h : is_float (resolveRaw s k) = true
  · rw [if_pos h]
    exact resolveRaw_stripped s k
  · rw [if_neg h]
    decide

theorem get_child_force_other (s : Element) (nm : String)
    (h1 : nm ≠ "latitude") (h2 : nm ≠ "longitude") (h3 : nm ≠ "elevation") :
    get_child (force_station_numeric_attrs s).1 nm = get_child s nm := by
  unfold force_station_numeric_attrs
  rw [get_child_stationCode, get_child_mirror3_other _ _ _ _ _ h1 h2 h3, get_child_attr3]

theorem norm_fix (v : String) (h : is_float v = true) : norm_num_or_default v "0.0" = v := by
  unfold norm_num_or_default
  rw [if_pos h]

theorem is_float_coercedVal (s : Element) (k : String) : is_float (coercedVal s k) = true :=
  is_float_norm _

theorem coercedVal_ne_empty (s : Element) (k : String) : coercedVal s k ≠ "" :=
  norm_ne_empty _

theorem stationCode_cases (M : Element) (b : Bool) :
    (stationCode M b = (M, b) ∧
      ((getAttr M.attrib "code" = none ∨ getAttr M.attrib "code" = some "") →
        get_child_text M "code" = "")) ∨
    (stationCode M b = (M.setAttrV "code" (get_child_text M "code"), true) ∧
      get_child_text M "code" ≠ "") := by
  unfold stationCode
  by_cases h1 : getAttr M.attrib "code" = none ∨ getAttr M.attrib "code" = some ""
  · by_cases h2 : get_child_text M "code" = ""
    · left
      rw [if_pos h1, if_pos h2]
      exact ⟨rfl, fun _ => h2⟩
    · right
      rw [if_pos h1, if_neg h2]
      exact ⟨rfl, h2⟩
  · left
    rw [if_neg h1]
    exact ⟨rfl, fun hc => absurd hc h1⟩

theorem attr3_noop (M : Element)
    (hl : getAttr M.attrib "latitude" = some (coercedVal M "latitude"))
    (hm : getAttr M.attrib "longitude" = some (coercedVal M "longitude"))
    (he : getAttr M.attrib "elevation" = some (coercedVal M "elevation")) :
    attr3 M = (M, false) := by
  have e1 := setIfDiff_noop M "latitude" _ hl
  have e1f : (setIfDiff M "latitude" (coercedVal M "latitude")).1 = M := by rw [e1]
  have e1s : (setIfDiff M "latitude" (coercedVal M "latitude")).2 = false := by rw [e1]
  have e2 := setIfDiff_noop M "longitude" _ hm
  have e2f : (setIfDiff M "longitude" (coercedVal M "longitude")).1 = M := by rw [e2]
  have e2s : (setIfDiff M "longitude" (coercedVal M "longitude")).2 = false := by rw [e2]
  have e3 := setIfDiff_noop M "elevation" _ he
  have e3f : (setIfDiff M "elevation" (coercedVal M "elevation")).1 = M := by rw [e3]
  have e3s : (setIfDiff M "elevation" (coercedVal M "elevation")).2 = false := by rw [e3]
  have hshape : attr3 M =
      ((setIfDiff (setIfDiff (setIfDiff M "latitude" (coercedVal M "latitude")).1
          "longitude" (coercedVal M "longitude")).1 "elevation" (coercedVal M "elevation")).1,
        (setIfDiff M "latitude" (coercedVal M "latitude")).2 ||
        (setIfDiff (setIfDiff M "latitude" (coercedVal M "latitude")).1
          "longitude" (coercedVal M "longitude")).2 ||
        (setIfDiff (setIfDiff (setIfDiff M "latitude" (coercedVal M "latitude")).1
          "longitude" (coercedVal M "longitude")).1 "elevation" (coercedVal M "elevation")).2) :=
    rfl
  rw [hshape, e1f, e2f, e3f, e1s, e2s, e3s]
  rfl

theorem stationCode_noop (M : Element)
    (h : (getAttr M.attrib "code" = none ∨ getAttr M.attrib "code" = some "") →
      get_child_text M "code" = "") :
    stationCode M false = (M, false) := by
  unfold stationCode
  by_cases h1 : getAttr M.attrib "code" = none ∨ getAttr M.attrib "code" = some ""
  · rw [if_pos h1, if_pos (h h1)]
  · rw [if_neg h1]

/-- Running force_station_numeric_attrs on its own output changes
nothing and reports no change. -/
theorem force_idem (s : Element) :
    force_station_numeric_attrs (force_station_numeric_attrs s).1 =
      ((force_station_numeric_attrs s).1, false) := by
  have hlat := force_getAttr_lat s
  have hlon := force_getAttr_lon s
  have hele := force_getAttr_ele s
  have hrawL : resolveRaw (force_station_numeric_attrs s).1 "latitude" =
      coercedVal s "latitude" := by
    unfold resolveRaw
    rw [hlat, Option.getD_some]
    rw [if_neg (coercedVal_ne_empty s "latitude")]
    exact pyStrip_coercedVal s "latitude"
  have hrawM : resolveRaw (force_station_numeric_attrs s).1 "longitude" =
      coercedVal s "longitude" := by
    unfold resolveRaw
    rw [hlon, Option.getD_some]
    rw [if_neg (coercedVal_ne_empty s "longitude")]
    exact pyStrip_coercedVal s "longitude"
  have hrawE : resolveRaw (force_station_numeric_attrs s).1 "elevation" =
      coercedVal s "elevation" := by
    unfold resolveRaw
    rw [hele, Option.getD_some]
    rw [if_neg (coercedVal_ne_empty s "elevation")]
    exact pyStrip_coercedVal s "elevation"
  have hvalL : coercedVal (force_station_numeric_attrs s).1 "latitude" =
      coercedVal s "latitude" := by
    unfold coercedVal
    rw [hrawL, norm_fix _ (is_float_coercedVal s "latitude")]
    rfl
  have hvalM : coercedVal (force_station_numeric_attrs s).1 "longitude" =
      coercedVal s "longitude" := by
    unfold coercedVal
    rw [hrawM, norm_fix _ (is_float_coercedVal s "longitude")]
    rfl
  have hvalE : coercedVal (force_station_numeric_attrs s).1 "elevation" =
      coercedVal s "elevation" := by
    unfold coercedVal
    rw [hrawE, norm_fix _ (is_float_coercedVal s "elevation")]
    rfl
  have hattr3 : attr3 (force_station_numeric_attrs s).1 =
      ((force_station_numeric_attrs s).1, false) := by
    apply attr3_noop
    · rw [hvalL]; exact hlat
    · rw [hvalM]; exact hlon
    · rw [hvalE]; exact hele
  have hattr3f : (attr3 (force_station_numeric_attrs s).1).1 =
      (force_station_numeric_attrs s).1 := by rw [hattr3]
  have hattr3s : (attr3 (force_station_numeric_attrs s).1).2 = false := by rw [hattr3]
  obtain ⟨cL, hcL1, hcL2, _⟩ := force_getChild_lat s
  obtain ⟨cM, hcM1, hcM2, _⟩ := force_getChild_lon s
  obtain ⟨cE, hcE1, hcE2, _⟩ := force_getChild_ele s
  have hm : mirror3 (force_station_numeric_attrs s).1 (coercedVal s "latitude")
      (coercedVal s "longitude") (coercedVal s "elevation") =
      (force_station_numeric_attrs s).1 := by
    unfold mirror3
    rw [setFirstChildText_noop _ "latitude" _ cL hcL1 hcL2,
        setFirstChildText_noop _ "longitude" _ cM hcM1 hcM2,
        setFirstChildText_noop _ "elevation" _ cE hcE1 hcE2]
  have hcode : stationCode (force_station_numeric_attrs s).1 false =
      ((force_station_numeric_attrs s).1, false) := by
    rcases stationCode_cases
        (mirror3 (attr3 s).1 (coercedVal s "latitude") (coercedVal s "longitude")
          (coercedVal s "elevation")) (attr3 s).2 with ⟨heq, himp⟩ | ⟨heq, hne⟩
    · have hs'M : (force_station_numeric_attrs s).1 =
          mirror3 (attr3 s).1 (coercedVal s "latitude") (coercedVal s "longitude")
            (coercedVal s "elevation") := by
        show (stationCode _ _).1 = _
        rw [heq]
      apply stationCode_noop
      rw [hs'M]
      exact himp
    · have hs'M : (force_station_numeric_attrs s).1 =
          (mirror3 (attr3 s).1 (coercedVal s "latitude") (coercedVal s "longitude")
            (coercedVal s "elevation")).setAttrV "code"
            (get_child_text (mirror3 (attr3 s).1 (coercedVal s "latitude")
              (coercedVal s "longitude") (coercedVal s "elevation")) "code") := by
        show (stationCode _ _).1 = _
        rw [heq]
      apply stationCode_noop
      intro hcontra
      rw [hs'M] at hcontra
      simp only [setAttrV_attrib, getAttr_setAttr_self] at hcontra
      rcases hcontra with h | h
      · exact absurd h (Option.noConfusion)
      · exact absurd (Option.some.inj h) hne
  have hshape : force_station_numeric_attrs (force_station_numeric_attrs s).1 =
      stationCode (mirror3 (attr3 (force_station_numeric_attrs s).1).1
        (coercedVal (force_station_numeric_attrs s).1 "latitude")
        (coercedVal (force_station_numeric_attrs s).1 "longitude")
        (coercedVal (force_station_numeric_attrs s).1 "elevation"))
        (attr3 (force_station_numeric_attrs s).1).2 := rfl
  rw [hshape, hvalL, hvalM, hvalE, hattr3f, hattr3s, hm]
  exact hcode

/-! ## Code promotion -/

@[simp] theorem promoteCode_tag (e : Element) : (promoteCode e).tag = e.tag := by
  unfold promoteCode
  split_ifs <;> simp

@[simp] theorem promoteCode_text (e : Element) : (promoteCode e).text = e.text := by
  unfold promoteCode
  split_ifs <;> simp

@[simp] theorem promoteCode_children (e : Element) : (promoteCode e).children = e.children := by
  unfold promoteCode
  split_ifs <;> simp

theorem get_child_promoteCode (e : Element) (nm : String) :
    get_child (promoteCode e) nm = get_child e nm := by
  unfold get_child
  rw [promoteCode_children]

theorem promoteCode_getAttr_other (e : Element) (k : String) (h : k ≠ "code") :
    getAttr (promoteCode e).attrib k = getAttr e.attrib k := by
  unfold promoteCode
  split_ifs <;> simp [getAttr_setAttr_other _ _ _ _ h]

theorem promoteCode_idem (e : Element) : promoteCode (promoteCode e) = promoteCode e := by
  by_cases h1 : getAttr e.attrib "code" = none ∨ getAttr e.attrib "code" = some ""
  · by_cases h2 : get_child_text e "code" = ""
    · have he : promoteCode e = e := by
        unfold promoteCode
        rw [if_pos h1, if_pos h2]
      rw [he, he]
    · have he : promoteCode e = e.setAttrV "code" (get_child_text e "code") := by
        unfold promoteCode
        rw [if_pos h1, if_neg h2]
      rw [he]
      unfold promoteCode
      rw [if_neg]
      rw [setAttrV_attrib, getAttr_setAttr_self]
      intro hc
      rcases hc with hc | hc
      · exact Option.noConfusion hc
      · exact h2 (Option.some.inj hc)
  · have he : promoteCode e = e := by
      unfold promoteCode
      rw [if_neg h1]
    rw [he, he]

/-! ## The formatted sample rate parses as a float -/

theorem isPySpace_false_of_digit (c : Char) (h : c.isDigit = true) : isPySpace c = false := by
  by_contra hc
  have ht : isPySpace c = true := by
    revert hc
    cases isPySpace c <;> simp
  simp only [isPySpace, decide_eq_true_eq] at ht
  rcases ht with h1 | h1 | h1 | h1 | h1 | h1 <;> (subst h1; revert h; decide)

theorem dropWhile_of_all_false {α : Type} (p : α → Bool) (l : List α)
    (h : ∀ c ∈ l, p c = false) : l.dropWhile p = l := by
  cases l with
  | nil => rfl
  | cons a r =>
    rw [List.dropWhile_cons, if_neg]
    simp [h a (List.mem_cons_self _ _)]

theorem stripChars_of_all_false (l : List Char)
    (h : ∀ c ∈ l, isPySpace c = false) : stripChars l = l := by
  unfold stripChars
  rw [dropWhile_of_all_false _ _ h, dropWhile_of_all_false, List.reverse_reverse]
  intro c hc
  exact h c (List.mem_reverse.mp hc)

theorem natToDigitsAux_digits :
    ∀ (fuel n : Nat) (acc : List Char), n < fuel →
      ∃ ds, natToDigitsAux fuel n acc = ds ++ acc ∧ ds ≠ [] ∧ ∀ c ∈ ds, c.isDigit = true := by
  intro fuel
  induction fuel with
  | zero => intro n acc h; omega
  | succ fuel ih =>
    intro n acc h
    by_cases hn : n < 10
    · refine ⟨[digitChar n], ?_, by simp, ?_⟩
      · unfold natToDigitsAux
        rw [if_pos hn]
        rfl
      · intro c hc
        simp only [List.mem_singleton] at hc
        subst hc
        unfold digitChar
        interval_cases n <;> decide
    · have hrec : n / 10 < fuel := by omega
      obtain ⟨ds, hds, hne, hdig⟩ := ih (n / 10) (digitChar (n % 10) :: acc) hrec
      refine ⟨ds ++ [digitChar (n % 10)], ?_, by simp, ?_⟩
      · unfold natToDigitsAux
        rw [if_neg hn, hds, List.append_assoc]
        rfl
      · intro c hc
        rcases List.mem_append.mp hc with hc | hc
        · exact hdig c hc
        · simp only [List.mem_singleton] at hc
          subst hc
          have h10 : n % 10 < 10 := Nat.mod_lt _ (by omega)
          unfold digitChar
          interval_cases h : (n % 10) <;> decide

theorem natToDigits_digits (n : Nat) :
    natToDigits n ≠ [] ∧ ∀ c ∈ natToDigits n, c.isDigit = true := by
  obtain ⟨ds, hds, hne, hdig⟩ := natToDigitsAux_digits (n + 1) n [] (by omega)
  unfold natToDigits
  rw [hds, List.append_nil]
  exact ⟨hne, hdig⟩

theorem pad6_digits (n : Nat) : ∀ c ∈ pad6 n, c.isDigit = true := by
  intro c hc
  unfold pad6 at hc
  rcases List.mem_append.mp hc with hc | hc
  · rw [List.eq_of_mem_replicate hc]
    decide
  · exact (natToDigits_digits n).2 c hc

theorem pad6_ne_nil (n : Nat) : pad6 n ≠ [] := by
  unfold pad6
  intro h
  rcases List.append_eq_nil.mp h with ⟨_, h2⟩
  exact (natToDigits_digits n).1 h2

theorem digitsTail_cons_digit (acc : List Char) (c : Char) (r : List Char)
    (h : c.isDigit = true) : digitsTail acc (c :: r) = digitsTail (c :: acc) r := by
  conv_lhs => unfold digitsTail
  rw [if_pos h]

theorem digitsTail_digits (rest : List Char) :
    ∀ (ds acc : List Char), (∀ c ∈ ds, c.isDigit = true) →
      digitsTail acc (ds ++ rest) = digitsTail (ds.reverse ++ acc) rest := by
  intro ds
  induction ds with
  | nil => intro acc _; simp
  | cons d ds ih =>
    intro acc hd
    rw [List.cons_append, digitsTail_cons_digit _ _ _ (hd d (List.mem_cons_self _ _)),
        ih (d :: acc) (fun c hc => hd c (List.mem_cons_of_mem _ hc)),
        List.reverse_cons, List.append_assoc]
    rfl

theorem digitsTail_stop (acc : List Char) (rest : List Char)
    (h : rest = [] ∨ ∃ c r, rest = c :: r ∧ c.isDigit = false ∧ c ≠ '_') :
    digitsTail acc rest = (acc.reverse, rest) := by
  rcases h with h | ⟨c, r, h, hc1, hc2⟩
  · subst h; rfl
  · subst h
    unfold digitsTail
    rw [if_neg (by simp [hc1]), if_neg hc2]

theorem takeDigits_run (ds rest : List Char) (hne : ds ≠ [])
    (hdig : ∀ c ∈ ds, c.isDigit = true)
    (hrest : rest = [] ∨ ∃ c r, rest = c :: r ∧ c.isDigit = false ∧ c ≠ '_') :
    takeDigits (ds ++ rest) = some (ds, rest) := by
  cases ds with
  | nil => exact absurd rfl hne
  | cons d ds' =>
    rw [List.cons_append]
    rw [show takeDigits (d :: (ds' ++ rest)) =
        if d.isDigit = true then some (digitsTail [d] (ds' ++ rest)) else none from rfl]
    rw [if_pos (hdig d (List.mem_cons_self _ _))]
    rw [digitsTail_digits rest ds' [d] (fun c hc => hdig c (List.mem_cons_of_mem _ hc)),
        digitsTail_stop _ _ hrest]
    simp

theorem parseFinite_point (ds1 ds2 : List Char) (h1 : ds1 ≠ [])
    (hd1 : ∀ c ∈ ds1, c.isDigit = true) (h2 : ds2 ≠ [])
    (hd2 : ∀ c ∈ ds2, c.isDigit = true) :
    parseFinite (ds1 ++ '.' :: ds2) = some ⟨ds1, ds2, false, []⟩ := by
  unfold parseFinite
  rw [takeDigits_run ds1 ('.' :: ds2) h1 hd1 (Or.inr ⟨'.', ds2, rfl, by decide, by decide⟩)]
  have hd : takeDigits (ds2 ++ ([] : List Char)) = some (ds2, []) :=
    takeDigits_run ds2 [] h2 hd2 (Or.inl rfl)
  rw [List.append_nil] at hd
  simp only [hd]
  rw [if_neg (by intro hc; exact h1 hc.1)]
  rfl

theorem digit_not_sign (c : Char) (h : c.isDigit = true) : c ≠ '+' ∧ c ≠ '-' := by
  constructor <;> (intro hc; subst hc; revert h; decide)

theorem readSign_cons (c : Char) (r : List Char) :
    readSign (c :: r) = if c = '+' then (false, r)
      else if c = '-' then (true, r) else (false, c :: r) := rfl

theorem pyFloatParse_eq_of (s : String) (b : Bool) (rest : List Char) (fl : FinLit)
    (hsr : readSign (stripChars s.data) = (b, rest))
    (hpf : parseFinite rest = some fl) :
    pyFloatParse s = some (finLitVal b fl) := by
  simp only [pyFloatParse]
  rw [hsr]
  dsimp only
  rw [hpf]

theorem is_float_of_decimal (neg : Bool) (ds1 ds2 : List Char)
    (h1 : ds1 ≠ []) (hd1 : ∀ c ∈ ds1, c.isDigit = true)
    (h2 : ds2 ≠ []) (hd2 : ∀ c ∈ ds2, c.isDigit = true) (s : String)
    (hdata : s.data = (if neg then ['-'] else []) ++ (ds1 ++ '.' :: ds2)) :
    is_float s = true := by
  have hall : ∀ c ∈ (if neg then ['-'] else []) ++ (ds1 ++ '.' :: ds2),
      isPySpace c = false := by
    intro c hc
    rcases List.mem_append.mp hc with hc | hc
    · cases neg with
      | true =>
        have hc' : c = '-' := List.mem_singleton.mp (by rwa [if_pos rfl] at hc)
        subst hc'
        decide
      | false => simp at hc
    · rcases List.mem_append.mp hc with hc | hc
      · exact isPySpace_false_of_digit c (hd1 c hc)
      · rcases List.mem_cons.mp hc with hc | hc
        · subst hc; decide
        · exact isPySpace_false_of_digit c (hd2 c hc)
  have hsr : readSign (stripChars s.data) = (neg, ds1 ++ '.' :: ds2) := by
    rw [hdata, stripChars_of_all_false _ hall]
    cases neg with
    | false =>
      rw [show ((if (false : Bool) then ['-'] else []) ++ (ds1 ++ '.' :: ds2)) =
          ds1 ++ '.' :: ds2 from by simp]
      cases ds1 with
      | nil => exact absurd rfl h1
      | cons d r1 =>
        have hd := hd1 d (List.mem_cons_self _ _)
        obtain ⟨hp, hm⟩ := digit_not_sign d hd
        rw [List.cons_append, readSign_cons, if_neg hp, if_neg hm]
    | true =>
      rw [show ((if (true : Bool) then ['-'] else []) ++ (ds1 ++ '.' :: ds2)) =
          '-' :: (ds1 ++ '.' :: ds2) from by simp]
      rw [readSign_cons, if_neg (by decide), if_pos rfl]
  unfold is_float
  rw [pyFloatParse_eq_of s neg _ ⟨ds1, ds2, false, []⟩ hsr
    (parseFinite_point ds1 ds2 h1 hd1 h2 hd2)]
  rfl

/-- Whatever value the derived sample rate takes, the text written for
it parses as a float again. -/
theorem is_float_fmt6 (v : PyFloat) : is_float (fmt6 v) = true := by
  cases v with
  | nan => decide
  | inf => decide
  | ninf => decide
  | nzero => decide
  | finite n d =>
    by_cases hn : n < 0
    · refine is_float_of_decimal true
        (natToDigits ((roundHalfEven (n * 1000000) d).natAbs / 1000000))
        (pad6 ((roundHalfEven (n * 1000000) d).natAbs % 1000000))
        (natToDigits_digits _).1 (natToDigits_digits _).2
        (pad6_ne_nil _) (pad6_digits _) _ ?_
      simp only [fmt6]
      rw [if_pos hn]
      simp only [String.data_append]
      simp [List.append_assoc]
    · refine is_float_of_decimal false
        (natToDigits ((roundHalfEven (n * 1000000) d).natAbs / 1000000))
        (pad6 ((roundHalfEven (n * 1000000) d).natAbs % 1000000))
        (natToDigits_digits _).1 (natToDigits_digits _).2
        (pad6_ne_nil _) (pad6_digits _) _ ?_
      simp only [fmt6]
      rw [if_neg hn]
      simp only [String.data_append]
      simp [List.append_assoc]

/-! ## Stream fixing -/

theorem fmt6_finite_data (n : Int) (d : Nat) :
    (fmt6 (PyFloat.finite n d)).data =
      (if n < 0 then ['-'] else []) ++
        (natToDigits ((roundHalfEven (n * 1000000) d).natAbs / 1000000) ++
          '.' :: pad6 ((roundHalfEven (n * 1000000) d).natAbs % 1000000)) := by
  by_cases hn : n < 0
  · simp only [fmt6]
    rw [if_pos hn, if_pos hn]
    simp only [String.data_append]
    simp [List.append_assoc]
  · simp only [fmt6]
    rw [if_neg hn, if_neg hn]
    simp only [String.data_append]
    simp [List.append_assoc]

theorem pyStrip_fmt6 (v : PyFloat) : pyStrip (fmt6 v) = fmt6 v := by
  cases v with
  | nan => decide
  | inf => decide
  | ninf => decide
  | nzero => decide
  | finite n d =>
    unfold pyStrip
    rw [stripChars_of_all_false]
    · intro c hc
      rw [fmt6_finite_data] at hc
      rcases List.mem_append.mp hc with hc | hc
      · by_cases hn : n < 0
        · rw [if_pos hn] at hc
          have hc' : c = '-' := List.mem_singleton.mp hc
          subst hc'
          decide
        · rw [if_neg hn] at hc
          simp at hc
      · rcases List.mem_append.mp hc with hc | hc
        · exact isPySpace_false_of_digit c ((natToDigits_digits _).2 c hc)
        · rcases List.mem_cons.mp hc with hc | hc
          · subst hc; decide
          · exact isPySpace_false_of_digit c (pad6_digits _ c hc)

theorem fixNumChild_eq_some (e : Element) (nm : String) (c : Element)
    (h : get_child e nm = some c) :
    fixNumChild e nm =
      if is_float (pyStrip (c.text.getD "")) = true then e
      else setFirstChildText e nm "0.0" := by
  unfold fixNumChild
  rw [h]

theorem fixNumChild_eq_none (e : Element) (nm : String) (h : get_child e nm = none) :
    fixNumChild e nm = setFirstChildText e nm "0.0" := by
  unfold fixNumChild
  rw [h]

theorem fixNumChild_cases (e : Element) (nm : String) :
    fixNumChild e nm = e ∨ fixNumChild e nm = setFirstChildText e nm "0.0" := by
  cases h : get_child e nm with
  | some c =>
    rw [fixNumChild_eq_some e nm c h]
    by_cases hf : is_float (pyStrip (c.text.getD "")) = true
    · left; rw [if_pos hf]
    · right; rw [if_neg hf]
  | none => right; exact fixNumChild_eq_none e nm h

@[simp] theorem fixNumChild_tag (e : Element) (nm : String) :
    (fixNumChild e nm).tag = e.tag := by
  rcases fixNumChild_cases e nm with h | h <;> rw [h] <;> simp

@[simp] theorem fixNumChild_attrib (e : Element) (nm : String) :
    (fixNumChild e nm).attrib = e.attrib := by
  rcases fixNumChild_cases e nm with h | h <;> rw [h] <;> simp

@[simp] theorem fixNumChild_text (e : Element) (nm : String) :
    (fixNumChild e nm).text = e.text := by
  rcases fixNumChild_cases e nm with h | h <;> rw [h] <;> simp

theorem get_child_fixNumChild_other (e : Element) (nm nm' : String)
    (hb : nm.data.contains '}' = false) (hl : localName nm = nm) (hne : nm ≠ nm') :
    get_child (fixNumChild e nm) nm' = get_child e nm' := by
  rcases fixNumChild_cases e nm with h | h
  · rw [h]
  · rw [h, get_child_setFirstChildText_other _ _ _ _ hb hl hne]

theorem fixNumChild_float (e : Element) (nm : String)
    (hb : nm.data.contains '}' = false) (hl : localName nm = nm) :
    ∃ c, get_child (fixNumChild e nm) nm = some c ∧
      is_float (pyStrip (c.text.getD "")) = true := by
  cases h : get_child e nm with
  | some c =>
    rw [fixNumChild_eq_some e nm c h]
    by_cases hf : is_float (pyStrip (c.text.getD "")) = true
    · rw [if_pos hf]
      exact ⟨c, h, hf⟩
    · rw [if_neg hf]
      obtain ⟨c', h1, h2, _, _⟩ := get_child_setFirstChildText_self e nm "0.0" hb hl
      refine ⟨c', h1, ?_⟩
      rw [h2]
      decide
  | none =>
    rw [fixNumChild_eq_none e nm h]
    obtain ⟨c', h1, h2, _, _⟩ := get_child_setFirstChildText_self e nm "0.0" hb hl
    refine ⟨c', h1, ?_⟩
    rw [h2]
    decide

theorem fixNumChild_noop (e : Element) (nm : String) (c : Element)
    (h : get_child e nm = some c) (hf : is_float (pyStrip (c.text.getD "")) = true) :
    fixNumChild e nm = e := by
  rw [fixNumChild_eq_some e nm c h, if_pos hf]

theorem srStep_eq_some (e : Element) (c : Element)
    (h : get_child e "samplerate" = some c) :
    srStep e = if is_float (pyStrip (c.text.getD "")) = true then e
      else setFirstChildText e "samplerate" (fmt6 (streamVal e)) := by
  unfold srStep
  rw [h]

theorem srStep_eq_none (e : Element) (h : get_child e "samplerate" = none) :
    srStep e = setFirstChildText e "samplerate" (fmt6 (streamVal e)) := by
  unfold srStep
  rw [h]

theorem srStep_cases (e : Element) :
    srStep e = e ∨ srStep e = setFirstChildText e "samplerate" (fmt6 (streamVal e)) := by
  cases h : get_child e "samplerate" with
  | some sr =>
    rw [srStep_eq_some e sr h]
    by_cases hf : is_float (pyStrip (sr.text.getD "")) = true
    · left; rw [if_pos hf]
    · right; rw [if_neg hf]
  | none => right; exact srStep_eq_none e h

@[simp] theorem srStep_tag (e : Element) : (srStep e).tag = e.tag := by
  rcases srStep_cases e with h | h <;> rw [h] <;> simp

@[simp] theorem srStep_attrib (e : Element) : (srStep e).attrib = e.attrib := by
  rcases srStep_cases e with h | h <;> rw [h] <;> simp

@[simp] theorem srStep_text (e : Element) : (srStep e).text = e.text := by
  rcases srStep_cases e with h | h <;> rw [h] <;> simp

theorem get_child_srStep_other (e : Element) (nm' : String) (hne : nm' ≠ "samplerate") :
    get_child (srStep e) nm' = get_child e nm' := by
  rcases srStep_cases e with h | h
  · rw [h]
  · rw [h, get_child_setFirstChildText_other _ _ _ _ (by decide) (by decide) (Ne.symm hne)]

theorem srStep_float (e : Element) :
    ∃ c, get_child (srStep e) "samplerate" = some c ∧
      is_float (pyStrip (c.text.getD "")) = true := by
  cases h : get_child e "samplerate" with
  | some sr =>
    rw [srStep_eq_some e sr h]
    by_cases hf : is_float (pyStrip (sr.text.getD "")) = true
    · rw [if_pos hf]
      exact ⟨sr, h, hf⟩
    · rw [if_neg hf]
      obtain ⟨c', h1, h2, _, _⟩ :=
        get_child_setFirstChildText_self e "samplerate" (fmt6 (streamVal e)) (by decide) (by decide)
      refine ⟨c', h1, ?_⟩
      rw [h2, Option.getD_some, pyStrip_fmt6]
      exact is_float_fmt6 _
  | none =>
    rw [srStep_eq_none e h]
    obtain ⟨c', h1, h2, _, _⟩ :=
      get_child_setFirstChildText_self e "samplerate" (fmt6 (streamVal e)) (by decide) (by decide)
    refine ⟨c', h1, ?_⟩
    rw [h2, Option.getD_some, pyStrip_fmt6]
    exact is_float_fmt6 _

theorem srStep_noop (e : Element) (c : Element)
    (h : get_child e "samplerate" = some c)
    (hf : is_float (pyStrip (c.text.getD "")) = true) : srStep e = e := by
  rw [srStep_eq_some e c h, if_pos hf]

theorem fix_stream_idem (st : Element) : fix_stream (fix_stream st) = fix_stream st := by
  obtain ⟨cA, hA1, hA2⟩ : ∃ c, get_child (fix_stream st) "azimuth" = some c ∧
      is_float (pyStrip (c.text.getD "")) = true := by
    unfold fix_stream
    rw [get_child_promoteCode, get_child_srStep_other _ _ (by decide),
        get_child_fixNumChild_other _ _ _ (by decide) (by decide) (by decide)]
    exact fixNumChild_float st "azimuth" (by decide) (by decide)
  obtain ⟨cD, hD1, hD2⟩ : ∃ c, get_child (fix_stream st) "dip" = some c ∧
      is_float (pyStrip (c.text.getD "")) = true := by
    unfold fix_stream
    rw [get_child_promoteCode, get_child_srStep_other _ _ (by decide)]
    exact fixNumChild_float _ "dip" (by decide) (by decide)
  obtain ⟨cS, hS1, hS2⟩ : ∃ c, get_child (fix_stream st) "samplerate" = some c ∧
      is_float (pyStrip (c.text.getD "")) = true := by
    unfold fix_stream
    rw [get_child_promoteCode]
    exact srStep_float _
  show promoteCode (srStep (fixNumChild (fixNumChild (fix_stream st) "azimuth") "dip")) = _
  rw [fixNumChild_noop _ _ cA hA1 hA2, fixNumChild_noop _ _ cD hD1 hD2,
      srStep_noop _ cS hS1 hS2]
  show promoteCode (promoteCode (srStep (fixNumChild (fixNumChild st "azimuth") "dip"))) = _
  exact promoteCode_idem _

@[simp] theorem fix_stream_tag (st : Element) : (fix_stream st).tag = st.tag := by
  unfold fix_stream
  rw [promoteCode_tag, srStep_tag, fixNumChild_tag, fixNumChild_tag]

@[simp] theorem fix_stream_text (st : Element) : (fix_stream st).text = st.text := by
  unfold fix_stream
  rw [promoteCode_text, srStep_text, fixNumChild_text, fixNumChild_text]

/-! ## The per-node fix -/

theorem nodeFix_net (p : Ctx) (f : Bool) (e : Element) (h : localName e.tag = "network") :
    nodeFix p f e = promoteCode e := by
  unfold nodeFix
  rw [if_pos h]

theorem nodeFix_sta (p : Ctx) (f : Bool) (e : Element) (h1 : localName e.tag ≠ "network")
    (h2 : p = Ctx.net ∧ localName e.tag = "station") :
    nodeFix p f e = (force_station_numeric_attrs e).1 := by
  unfold nodeFix
  rw [if_neg h1, if_pos h2]

theorem nodeFix_sl (p : Ctx) (f : Bool) (e : Element) (h1 : localName e.tag ≠ "network")
    (h2 : ¬(p = Ctx.net ∧ localName e.tag = "station"))
    (h3 : f = true ∧ p = Ctx.sta ∧ localName e.tag = "sensorlocation") :
    nodeFix p f e = promoteCode e := by
  unfold nodeFix
  rw [if_neg h1, if_neg h2, if_pos h3]

theorem nodeFix_stream (p : Ctx) (f : Bool) (e : Element) (h1 : localName e.tag ≠ "network")
    (h2 : ¬(p = Ctx.net ∧ localName e.tag = "station"))
    (h3 : ¬(f = true ∧ p = Ctx.sta ∧ localName e.tag = "sensorlocation"))
    (h4 : f = true ∧ p = Ctx.sl ∧ localName e.tag = "stream") :
    nodeFix p f e = fix_stream e := by
  unfold nodeFix
  rw [if_neg h1, if_neg h2, if_neg h3, if_pos h4]

theorem nodeFix_id (p : Ctx) (f : Bool) (e : Element) (h1 : localName e.tag ≠ "network")
    (h2 : ¬(p = Ctx.net ∧ localName e.tag = "station"))
    (h3 : ¬(f = true ∧ p = Ctx.sta ∧ localName e.tag = "sensorlocation"))
    (h4 : ¬(f = true ∧ p = Ctx.sl ∧ localName e.tag = "stream")) :
    nodeFix p f e = e := by
  unfold nodeFix
  rw [if_neg h1, if_neg h2, if_neg h3, if_neg h4]

/-- A node whose local name plays no container role is left alone. -/
theorem nodeFix_other (p : Ctx) (f : Bool) (e : Element) (h1 : localName e.tag ≠ "network")
    (h2 : localName e.tag ≠ "station") (h3 : localName e.tag ≠ "sensorlocation")
    (h4 : localName e.tag ≠ "stream") : nodeFix p f e = e :=
  nodeFix_id p f e h1 (fun hc => h2 hc.2) (fun hc => h3 hc.2.2) (fun hc => h4 hc.2.2)

theorem nodeFix_tag (p : Ctx) (f : Bool) (e : Element) : (nodeFix p f e).tag = e.tag := by
  by_cases h1 : localName e.tag = "network"
  · rw [nodeFix_net p f e h1, promoteCode_tag]
  · by_cases h2 : p = Ctx.net ∧ localName e.tag = "station"
    · rw [nodeFix_sta p f e h1 h2, force_tag]
    · by_cases h3 : f = true ∧ p = Ctx.sta ∧ localName e.tag = "sensorlocation"
      · rw [nodeFix_sl p f e h1 h2 h3, promoteCode_tag]
      · by_cases h4 : f = true ∧ p = Ctx.sl ∧ localName e.tag = "stream"
        · rw [nodeFix_stream p f e h1 h2 h3 h4, fix_stream_tag]
        · rw [nodeFix_id p f e h1 h2 h3 h4]

theorem nodeFix_idem (p : Ctx) (f : Bool) (e : Element) :
    nodeFix p f (nodeFix p f e) = nodeFix p f e := by
  by_cases h1 : localName e.tag = "network"
  · rw [nodeFix_net p f e h1,
      nodeFix_net p f (promoteCode e) (by rw [promoteCode_tag]; exact h1), promoteCode_idem]
  · by_cases h2 : p = Ctx.net ∧ localName e.tag = "station"
    · rw [nodeFix_sta p f e h1 h2,
        nodeFix_sta p f (force_station_numeric_attrs e).1 (by rw [force_tag]; exact h1)
          (by rw [force_tag]; exact h2)]
      rw [force_idem e]
    · by_cases h3 : f = true ∧ p = Ctx.sta ∧ localName e.tag = "sensorlocation"
      · rw [nodeFix_sl p f e h1 h2 h3,
          nodeFix_sl p f (promoteCode e) (by rw [promoteCode_tag]; exact h1)
            (by rw [promoteCode_tag]; exact h2) (by rw [promoteCode_tag]; exact h3),
          promoteCode_idem]
      · by_cases h4 : f = true ∧ p = Ctx.sl ∧ localName e.tag = "stream"
        · rw [nodeFix_stream p f e h1 h2 h3 h4,
            nodeFix_stream p f (fix_stream e) (by rw [fix_stream_tag]; exact h1)
              (by rw [fix_stream_tag]; exact h2) (by rw [fix_stream_tag]; exact h3)
              (by rw [fix_stream_tag]; exact h4),
            fix_stream_idem]
        · rw [nodeFix_id p f e h1 h2 h3 h4, nodeFix_id p f e h1 h2 h3 h4]

/-! ## Traversal equations -/

theorem processTree_eq (f : Bool) (p : Ctx) (t : String) (a : List (String × String))
    (x : Option String) (cs : List Element) :
    processTree f p (Element.mk t a x cs) =
      nodeFix p f (Element.mk t a x (processList f (childCtx p t) cs)) := by
  unfold processTree
  rfl

theorem processList_nil (f : Bool) (q : Ctx) : processList f q [] = [] := by
  unfold processList
  rfl

theorem processList_cons (f : Bool) (q : Ctx) (c : Element) (r : List Element) :
    processList f q (c :: r) = processTree f q c :: processList f q r := by
  conv_lhs => unfold processList

theorem mem_processList (f : Bool) (q : Ctx) (l : List Element) :
    ∀ c2 ∈ processList f q l, ∃ c ∈ l, c2 = processTree f q c := by
  induction l with
  | nil =>
    intro c2 hc2
    rw [processList_nil] at hc2
    cases hc2
  | cons c r ih =>
    intro c2 hc2
    rw [processList_cons] at hc2
    rcases List.mem_cons.mp hc2 with hc2 | hc2
    · exact ⟨c, List.mem_cons_self _ _, hc2⟩
    · obtain ⟨c', hc', he⟩ := ih c2 hc2
      exact ⟨c', List.mem_cons_of_mem _ hc', he⟩

theorem processList_fixed (f : Bool) (q : Ctx) (l : List Element)
    (h : ∀ c ∈ l, processTree f q c = c) : processList f q l = l := by
  induction l with
  | nil => exact processList_nil f q
  | cons c r ih =>
    rw [processList_cons, h c (List.mem_cons_self _ _),
        ih (fun c' hc' => h c' (List.mem_cons_of_mem _ hc'))]

theorem childCtx_net_iff (p : Ctx) (t : String) :
    (childCtx p t = Ctx.net) ↔ (localName t = "network") := by
  unfold childCtx
  by_cases h1 : localName t = "network"
  · rw [if_pos h1]
    exact ⟨fun _ => h1, fun _ => rfl⟩
  · rw [if_neg h1]
    constructor
    · intro hc
      split_ifs at hc <;> cases hc
    · intro hc
      exact absurd hc h1

/-! ## Six mirrored child names -/

theorem localName_childNS_six (T nm : String)
    (h : nm ∈ (["latitude", "longitude", "elevation", "azimuth", "dip",
      "samplerate"] : List String)) :
    localName (childNS T ++ nm) = nm := by
  fin_cases h <;> exact (localName_childNS_append _ _ (by decide)).trans (by decide)

theorem sixNames_not_container (nm : String)
    (h : nm ∈ (["latitude", "longitude", "elevation", "azimuth", "dip",
      "samplerate"] : List String)) :
    nm ≠ "network" ∧ nm ≠ "station" ∧ nm ≠ "sensorlocation" ∧ nm ≠ "stream" := by
  fin_cases h <;> exact ⟨by decide, by decide, by decide, by decide⟩

/-- A processed node with a non-container local name keeps its children
fixed under further processing, whatever its text is set to. -/
theorem processTree_fix_withText (f : Bool) (q : Ctx) (c : Element) (v nm : String)
    (hnm : nm ∈ (["latitude", "longitude", "elevation", "azimuth", "dip",
      "samplerate"] : List String))
    (hname : localName c.tag = nm)
    (hfix : processTree f q c = c) :
    processTree f q (c.withText (some v)) = c.withText (some v) := by
  obtain ⟨hn1, hn2, hn3, hn4⟩ := sixNames_not_container nm hnm
  cases c with
  | mk t a x cs =>
    rw [tag_mk] at hname
    have hother : ∀ (e' : Element), e'.tag = t → ∀ p', nodeFix p' f e' = e' := by
      intro e' he' p'
      refine nodeFix_other p' f e' ?_ ?_ ?_ ?_ <;> rw [he', hname]
      · exact hn1
      · exact hn2
      · exact hn3
      · exact hn4
    have hPL : processList f (childCtx q t) cs = cs := by
      rw [processTree_eq, hother (Element.mk t a x (processList f (childCtx q t) cs)) rfl q]
        at hfix
      exact (Element.mk.injEq _ _ _ _ _ _ _ _).mp hfix |>.2.2.2
    show processTree f q (Element.mk t a (some v) cs) = Element.mk t a (some v) cs
    rw [processTree_eq, hPL, hother (Element.mk t a (some v) cs) rfl q]

/-- A freshly created mirror child is already processed. -/
theorem processTree_fix_leaf (f : Bool) (q : Ctx) (T v nm : String)
    (hnm : nm ∈ (["latitude", "longitude", "elevation", "azimuth", "dip",
      "samplerate"] : List String)) :
    processTree f q (Element.mk (childNS T ++ nm) [] (some v) []) =
      Element.mk (childNS T ++ nm) [] (some v) [] := by
  obtain ⟨hn1, hn2, hn3, hn4⟩ := sixNames_not_container nm hnm
  have hloc := localName_childNS_six T nm hnm
  rw [processTree_eq, processList_nil]
  refine nodeFix_other q f _ ?_ ?_ ?_ ?_ <;> rw [tag_mk, hloc]
  · exact hn1
  · exact hn2
  · exact hn3
  · exact hn4

/-! ## Children produced by the node fixes -/

/-- setTextFirst only replaces the text of a child of the given local
name or appends one fresh mirror child, so it preserves any property
closed under those two changes. -/
theorem setTextFirst_pred (Fx : Element → Prop) (ns nm v : String) (cs : List Element)
    (hw : ∀ c, localName c.tag = nm → Fx c → Fx (c.withText (some v)))
    (hleaf : Fx (Element.mk (ns ++ nm) [] (some v) []))
    (h : ∀ c ∈ cs, Fx c) : ∀ c2 ∈ setTextFirst ns nm v cs, Fx c2 := by
  induction cs with
  | nil =>
    intro c2 hc2
    rw [show setTextFirst ns nm v [] = [Element.mk (ns ++ nm) [] (some v) []] from rfl] at hc2
    rw [List.mem_singleton.mp hc2]
    exact hleaf
  | cons c r ih =>
    intro c2 hc2
    by_cases hc : localName c.tag = nm
    · rw [show setTextFirst ns nm v (c :: r) = c.withText (some v) :: r from by
        simp [setTextFirst, hc]] at hc2
      rcases List.mem_cons.mp hc2 with hc2 | hc2
      · rw [hc2]
        exact hw c hc (h c (List.mem_cons_self _ _))
      · exact h c2 (List.mem_cons_of_mem _ hc2)
    · rw [show setTextFirst ns nm v (c :: r) = c :: setTextFirst ns nm v r from by
        simp [setTextFirst, hc]] at hc2
      rcases List.mem_cons.mp hc2 with hc2 | hc2
      · rw [hc2]
        exact h c (List.mem_cons_self _ _)
      · exact ih (fun c' hc' => h c' (List.mem_cons_of_mem _ hc')) c2 hc2

theorem force_children_shape (s : Element) :
    (force_station_numeric_attrs s).1.children =
      setTextFirst (childNS s.tag) "elevation" (coercedVal s "elevation")
        (setTextFirst (childNS s.tag) "longitude" (coercedVal s "longitude")
          (setTextFirst (childNS s.tag) "latitude" (coercedVal s "latitude") s.children)) := by
  unfold force_station_numeric_attrs
  rw [stationCode_children]
  unfold mirror3
  rw [setFirstChildText_children, setFirstChildText_tag, setFirstChildText_tag, attr3_tag,
      setFirstChildText_children, setFirstChildText_tag, attr3_tag,
      setFirstChildText_children, attr3_tag, attr3_children]

theorem force_children_pred (Fx : Element → Prop) (s : Element)
    (hw : ∀ c v nm, nm ∈ (["latitude", "longitude", "elevation", "azimuth", "dip",
      "samplerate"] : List String) → localName c.tag = nm → Fx c → Fx (c.withText (some v)))
    (hleaf : ∀ v nm, nm ∈ (["latitude", "longitude", "elevation", "azimuth", "dip",
      "samplerate"] : List String) → Fx (Element.mk (childNS s.tag ++ nm) [] (some v) []))
    (h : ∀ c ∈ s.children, Fx c) :
    ∀ c ∈ (force_station_numeric_attrs s).1.children, Fx c := by
  rw [force_children_shape]
  refine setTextFirst_pred Fx _ _ _ _ (fun c hc => hw c _ "elevation" (by decide) hc)
    (hleaf _ "elevation" (by decide)) ?_
  refine setTextFirst_pred Fx _ _ _ _ (fun c hc => hw c _ "longitude" (by decide) hc)
    (hleaf _ "longitude" (by decide)) ?_
  exact setTextFirst_pred Fx _ _ _ _ (fun c hc => hw c _ "latitude" (by decide) hc)
    (hleaf _ "latitude" (by decide)) h

theorem fixNumChild_children_pred (Fx : Element → Prop) (e : Element) (nm : String)
    (hnm : nm ∈ (["latitude", "longitude", "elevation", "azimuth", "dip",
      "samplerate"] : List String))
    (hw : ∀ c v nm', nm' ∈ (["latitude", "longitude", "elevation", "azimuth", "dip",
      "samplerate"] : List String) → localName c.tag = nm' → Fx c → Fx (c.withText (some v)))
    (hleaf : ∀ v nm', nm' ∈ (["latitude", "longitude", "elevation", "azimuth", "dip",
      "samplerate"] : List String) → Fx (Element.mk (childNS e.tag ++ nm') [] (some v) []))
    (h : ∀ c ∈ e.children, Fx c) :
    ∀ c ∈ (fixNumChild e nm).children, Fx c := by
  rcases fixNumChild_cases e nm with hc | hc
  · rw [hc]
    exact h
  · rw [hc, setFirstChildText_children]
    exact setTextFirst_pred Fx _ _ _ _ (fun c hcn => hw c _ nm hnm hcn) (hleaf _ nm hnm) h

theorem fix_stream_children_pred (Fx : Element → Prop) (st : Element)
    (hw : ∀ c v nm', nm' ∈ (["latitude", "longitude", "elevation", "azimuth", "dip",
      "samplerate"] : List String) → localName c.tag = nm' → Fx c → Fx (c.withText (some v)))
    (hleaf : ∀ v nm', nm' ∈ (["latitude", "longitude", "elevation", "azimuth", "dip",
      "samplerate"] : List String) → Fx (Element.mk (childNS st.tag ++ nm') [] (some v) []))
    (h : ∀ c ∈ st.children, Fx c) :
    ∀ c ∈ (fix_stream st).children, Fx c := by
  have haz : ∀ c ∈ (fixNumChild st "azimuth").children, Fx c :=
    fixNumChild_children_pred Fx st "azimuth" (by decide) hw hleaf h
  have hdip : ∀ c ∈ (fixNumChild (fixNumChild st "azimuth") "dip").children, Fx c := by
    refine fixNumChild_children_pred Fx _ "dip" (by decide) hw ?_ haz
    rw [fixNumChild_tag]
    exact hleaf
  unfold fix_stream
  rw [promoteCode_children]
  rcases srStep_cases (fixNumChild (fixNumChild st "azimuth") "dip") with hs | hs
  · rw [hs]
    exact hdip
  · rw [hs, setFirstChildText_children, fixNumChild_tag, fixNumChild_tag]
    exact setTextFirst_pred Fx _ _ _ _ (fun c hcn => hw c _ "samplerate" (by decide) hcn)
      (hleaf _ "samplerate" (by decide)) hdip

theorem nodeFix_children_pred (Fx : Element → Prop) (p : Ctx) (f : Bool) (e : Element)
    (hw : ∀ c v nm', nm' ∈ (["latitude", "longitude", "elevation", "azimuth", "dip",
      "samplerate"] : List String) → localName c.tag = nm' → Fx c → Fx (c.withText (some v)))
    (hleaf : ∀ v nm', nm' ∈ (["latitude", "longitude", "elevation", "azimuth", "dip",
      "samplerate"] : List String) → Fx (Element.mk (childNS e.tag ++ nm') [] (some v) []))
    (h : ∀ c ∈ e.children, Fx c) :
    ∀ c ∈ (nodeFix p f e).children, Fx c := by
  by_cases h1 : localName e.tag = "network"
  · rw [nodeFix_net p f e h1, promoteCode_children]
    exact h
  · by_cases h2 : p = Ctx.net ∧ localName e.tag = "station"
    · rw [nodeFix_sta p f e h1 h2]
      exact force_children_pred Fx e hw hleaf h
    · by_cases h3 : f = true ∧ p = Ctx.sta ∧ localName e.tag = "sensorlocation"
      · rw [nodeFix_sl p f e h1 h2 h3, promoteCode_children]
        exact h
      · by_cases h4 : f = true ∧ p = Ctx.sl ∧ localName e.tag = "stream"
        · rw [nodeFix_stream p f e h1 h2 h3 h4]
          exact fix_stream_children_pred Fx e hw hleaf h
        · rw [nodeFix_id p f e h1 h2 h3 h4]
          exact h

/-- Second pass of the whole normalization: nothing changes. -/
theorem processTree_idem (e : Element) :
    ∀ (f : Bool) (p : Ctx), processTree f p (processTree f p e) = processTree f p e := by
  induction e using Element.induct with
  | h t a x cs IH =>
  intro f p
  rw [processTree_eq]
  have hfix1 : ∀ c' ∈ processList f (childCtx p t) cs,
      processTree f (childCtx p t) c' = c' := by
    intro c' hc'
    obtain ⟨c, hc, he⟩ := mem_processList f (childCtx p t) cs c' hc'
    rw [he]
    exact IH c hc f (childCtx p t)
  cases hr : nodeFix p f (Element.mk t a x (processList f (childCtx p t) cs)) with
  | mk t2 a2 x2 cs2 =>
    have ht2 : t2 = t := by
      have := nodeFix_tag p f (Element.mk t a x (processList f (childCtx p t) cs))
      rw [hr, tag_mk, tag_mk] at this
      exact this
    have hcs2 : ∀ c ∈ cs2, processTree f (childCtx p t) c = c := by
      have := nodeFix_children_pred (fun c => processTree f (childCtx p t) c = c) p f
        (Element.mk t a x (processList f (childCtx p t) cs))
        (fun c v nm' hnm' hname hfx => processTree_fix_withText f _ c v nm' hnm' hname hfx)
        (fun v nm' hnm' => processTree_fix_leaf f _ t v nm' hnm')
        (by rw [children_mk]; exact hfix1)
      rw [hr, children_mk] at this
      exact this
    rw [processTree_eq, ht2, processList_fixed f (childCtx p t) cs2 hcs2, ← ht2, ← hr,
        nodeFix_idem]

/-! ## The stations-fixed tally of a second run -/

theorem countTree_eq (f : Bool) (p : Ctx) (t : String) (a : List (String × String))
    (x : Option String) (cs : List Element) :
    countTree f p (Element.mk t a x cs) =
      Counts.add
        (if p = Ctx.net ∧ localName t = "station" then
          ⟨1, if (force_station_numeric_attrs (Element.mk t a x cs)).2 then 1 else 0, 0⟩
         else if f = true ∧ p = Ctx.sl ∧ localName t = "stream" then ⟨0, 0, 1⟩
         else ⟨0, 0, 0⟩)
        (countList f (childCtx p t) cs) := by
  conv_lhs => unfold countTree

theorem countList_nil (f : Bool) (q : Ctx) : countList f q [] = ⟨0, 0, 0⟩ := by
  conv_lhs => unfold countList

theorem countList_cons (f : Bool) (q : Ctx) (c : Element) (r : List Element) :
    countList f q (c :: r) = Counts.add (countTree f q c) (countList f q r) := by
  conv_lhs => unfold countList

theorem Counts.add_fixed (u w : Counts) : (Counts.add u w).fixed = u.fixed + w.fixed := rfl

theorem countList_fixed_zero (f : Bool) (q : Ctx) (l : List Element)
    (h : ∀ c ∈ l, (countTree f q c).fixed = 0) : (countList f q l).fixed = 0 := by
  induction l with
  | nil => rw [countList_nil]
  | cons c r ih =>
    rw [countList_cons, Counts.add_fixed, h c (List.mem_cons_self _ _),
        ih (fun c' hc' => h c' (List.mem_cons_of_mem _ hc'))]

theorem countTree_node_zero (f : Bool) (q : Ctx) (t : String) (a : List (String × String))
    (x : Option String) (cs : List Element)
    (h2 : localName t ≠ "station") (h4 : localName t ≠ "stream") :
    (countTree f q (Element.mk t a x cs)).fixed =
      (countList f (childCtx q t) cs).fixed := by
  rw [countTree_eq, if_neg (fun hc => h2 hc.2), if_neg (fun hc => h4 hc.2.2),
      Counts.add_fixed]
  exact Nat.zero_add _

theorem countTree_fixed_withText (f : Bool) (q : Ctx) (c : Element) (v nm : String)
    (hnm : nm ∈ (["latitude", "longitude", "elevation", "azimuth", "dip",
      "samplerate"] : List String))
    (hname : localName c.tag = nm)
    (h : (countTree f q c).fixed = 0) :
    (countTree f q (c.withText (some v))).fixed = 0 := by
  obtain ⟨hn1, hn2, hn3, hn4⟩ := sixNames_not_container nm hnm
  cases c with
  | mk t a x cs =>
    rw [tag_mk] at hname
    rw [countTree_node_zero f q t a x cs (hname ▸ hn2) (hname ▸ hn4)] at h
    show (countTree f q (Element.mk t a (some v) cs)).fixed = 0
    rw [countTree_node_zero f q t a (some v) cs (hname ▸ hn2) (hname ▸ hn4)]
    exact h

theorem countTree_fixed_leaf (f : Bool) (q : Ctx) (T v nm : String)
    (hnm : nm ∈ (["latitude", "longitude", "elevation", "azimuth", "dip",
      "samplerate"] : List String)) :
    (countTree f q (Element.mk (childNS T ++ nm) [] (some v) [])).fixed = 0 := by
  obtain ⟨hn1, hn2, hn3, hn4⟩ := sixNames_not_container nm hnm
  have hloc := localName_childNS_six T nm hnm
  rw [countTree_node_zero f q _ _ _ _ (by rw [hloc]; exact hn2) (by rw [hloc]; exact hn4),
      countList_nil]

/-- On a second run nothing is counted as fixed. -/
theorem countTree_fixed_processTree (e : Element) :
    ∀ (f : Bool) (p : Ctx), (countTree f p (processTree f p e)).fixed = 0 := by
  induction e using Element.induct with
  | h t a x cs IH =>
  intro f p
  rw [processTree_eq]
  have hfix1 : ∀ c' ∈ processList f (childCtx p t) cs,
      (countTree f (childCtx p t) c').fixed = 0 := by
    intro c' hc'
    obtain ⟨c, hc, he⟩ := mem_processList f (childCtx p t) cs c' hc'
    rw [he]
    exact IH c hc f (childCtx p t)
  cases hr : nodeFix p f (Element.mk t a x (processList f (childCtx p t) cs)) with
  | mk t2 a2 x2 cs2 =>
    have ht2 : t2 = t := by
      have := nodeFix_tag p f (Element.mk t a x (processList f (childCtx p t) cs))
      rw [hr, tag_mk, tag_mk] at this
      exact this
    subst ht2
    have hcs2 : ∀ c ∈ cs2, (countTree f (childCtx p t2) c).fixed = 0 := by
      have := nodeFix_children_pred (fun c => (countTree f (childCtx p t2) c).fixed = 0) p f
        (Element.mk t2 a x (processList f (childCtx p t2) cs))
        (fun c v nm' hnm' hname hfx => countTree_fixed_withText f _ c v nm' hnm' hname hfx)
        (fun v nm' hnm' => countTree_fixed_leaf f _ t2 v nm' hnm')
        (by rw [children_mk]; exact hfix1)
      rw [hr, children_mk] at this
      exact this
    have hCL : (countList f (childCtx p t2) cs2).fixed = 0 :=
      countList_fixed_zero f _ cs2 hcs2
    rw [countTree_eq, Counts.add_fixed, hCL]
    by_cases hsta : p = Ctx.net ∧ localName t2 = "station"
    · rw [if_pos hsta]
      have hrr : Element.mk t2 a2 x2 cs2 =
          (force_station_numeric_attrs
            (Element.mk t2 a x (processList f (childCtx p t2) cs))).1 := by
        rw [← hr]
        exact nodeFix_sta p f _ (by rw [tag_mk, hsta.2]; decide) (by rw [tag_mk]; exact hsta)
      have hforce : (force_station_numeric_attrs (Element.mk t2 a2 x2 cs2)).2 = false := by
        rw [hrr, force_idem]
      rw [hforce]
      rfl
    · rw [if_neg hsta]
      by_cases hstr : f = true ∧ p = Ctx.sl ∧ localName t2 = "stream"
      · rw [if_pos hstr]
      · rw [if_neg hstr]

/-! ## Totality of the numeric-attribute invariant -/

theorem allStationsOK_eq (underNet : Bool) (t : String) (a : List (String × String))
    (x : Option String) (cs : List Element) :
    allStationsOK underNet (Element.mk t a x cs) =
      ((if underNet = true ∧ localName t = "station" then stationAttrsOK a else true) &&
        allStationsOKList (localName t = "network" : Bool) cs) := by
  conv_lhs => unfold allStationsOK

theorem allStationsOKList_nil (b : Bool) : allStationsOKList b [] = true := by
  conv_lhs => unfold allStationsOKList

theorem allStationsOKList_cons (b : Bool) (c : Element) (r : List Element) :
    allStationsOKList b (c :: r) = (allStationsOK b c && allStationsOKList b r) := by
  conv_lhs => unfold allStationsOKList

theorem allStationsOKList_of_mem (b : Bool) (l : List Element)
    (h : ∀ c ∈ l, allStationsOK b c = true) : allStationsOKList b l = true := by
  induction l with
  | nil => exact allStationsOKList_nil b
  | cons c r ih =>
    rw [allStationsOKList_cons, h c (List.mem_cons_self _ _),
        ih (fun c' hc' => h c' (List.mem_cons_of_mem _ hc')), Bool.and_self]

theorem allStationsOK_withText (b : Bool) (c : Element) (x : Option String) :
    allStationsOK b (c.withText x) = allStationsOK b c := by
  cases c; rfl

theorem allStationsOK_leaf (b : Bool) (T v nm : String)
    (hnm : nm ∈ (["latitude", "longitude", "elevation", "azimuth", "dip",
      "samplerate"] : List String)) :
    allStationsOK b (Element.mk (childNS T ++ nm) [] (some v) []) = true := by
  obtain ⟨hn1, hn2, hn3, hn4⟩ := sixNames_not_container nm hnm
  have hloc := localName_childNS_six T nm hnm
  rw [allStationsOK_eq, if_neg (fun hc => hn2 (hloc ▸ hc.2)), allStationsOKList_nil,
      Bool.and_self]

/-- After the pass, every station that is a direct child of a network
has the three numeric attributes. -/
theorem allStationsOK_processTree (e : Element) :
    ∀ (f : Bool) (p : Ctx), allStationsOK (decide (p = Ctx.net)) (processTree f p e) = true := by
  induction e using Element.induct with
  | h t a x cs IH =>
  intro f p
  rw [processTree_eq]
  have hfix1 : ∀ c' ∈ processList f (childCtx p t) cs,
      allStationsOK (decide (childCtx p t = Ctx.net)) c' = true := by
    intro c' hc'
    obtain ⟨c, hc, he⟩ := mem_processList f (childCtx p t) cs c' hc'
    rw [he]
    exact IH c hc f (childCtx p t)
  have hflag : (decide (childCtx p t = Ctx.net)) = (localName t = "network" : Bool) := by
    by_cases h : localName t = "network"
    · rw [decide_eq_true ((childCtx_net_iff p t).mpr h), decide_eq_true h]
    · rw [decide_eq_false (fun hc => h ((childCtx_net_iff p t).mp hc)), decide_eq_false h]
  cases hr : nodeFix p f (Element.mk t a x (processList f (childCtx p t) cs)) with
  | mk t2 a2 x2 cs2 =>
    have ht2 : t2 = t := by
      have := nodeFix_tag p f (Element.mk t a x (processList f (childCtx p t) cs))
      rw [hr, tag_mk, tag_mk] at this
      exact this
    subst ht2
    have hcs2 : ∀ c ∈ cs2, allStationsOK (decide (childCtx p t2 = Ctx.net)) c = true := by
      have := nodeFix_children_pred
        (fun c => allStationsOK (decide (childCtx p t2 = Ctx.net)) c = true) p f
        (Element.mk t2 a x (processList f (childCtx p t2) cs))
        (fun c v nm' _ _ hfx => by
          show allStationsOK (decide (childCtx p t2 = Ctx.net)) (c.withText (some v)) = true
          rw [allStationsOK_withText]
          exact hfx)
        (fun v nm' hnm' => allStationsOK_leaf _ t2 v nm' hnm')
        (by rw [children_mk]; exact hfix1)
      rw [hr, children_mk] at this
      exact this
    rw [allStationsOK_eq, ← hflag, allStationsOKList_of_mem _ cs2 hcs2, Bool.and_true]
    by_cases hsta : decide (p = Ctx.net) = true ∧ localName t2 = "station"
    · rw [if_pos hsta]
      have hrr : Element.mk t2 a2 x2 cs2 =
          (force_station_numeric_attrs
            (Element.mk t2 a x (processList f (childCtx p t2) cs))).1 := by
        rw [← hr]
        exact nodeFix_sta p f _ (by rw [tag_mk, hsta.2]; decide)
          (by rw [tag_mk]; exact ⟨of_decide_eq_true hsta.1, hsta.2⟩)
      have : stationAttrsOK (Element.mk t2 a2 x2 cs2).attrib = true := by
        rw [hrr]
        exact force_stationAttrsOK _
      rw [attrib_mk] at this
      exact this
    · rw [if_neg hsta]

/-! ## Namespace and case independence -/

theorem tagEquiv_eq (t1 t2 : String) (a1 a2 : List (String × String))
    (x1 x2 : Option String) (cs1 cs2 : List Element) :
    tagEquiv (Element.mk t1 a1 x1 cs1) (Element.mk t2 a2 x2 cs2) =
      ((localName t1 = localName t2 : Bool) && (a1 = a2 : Bool) && (x1 = x2 : Bool) &&
        tagEquivList cs1 cs2) := by
  conv_lhs => unfold tagEquiv

theorem tagEquivList_nil : tagEquivList [] [] = true := by
  conv_lhs => unfold tagEquivList

theorem tagEquivList_cons (c1 c2 : Element) (r1 r2 : List Element) :
    tagEquivList (c1 :: r1) (c2 :: r2) = (tagEquiv c1 c2 && tagEquivList r1 r2) := by
  conv_lhs => unfold tagEquivList

theorem tagEquivList_nil_cons (c : Element) (r : List Element) :
    tagEquivList [] (c :: r) = false := by
  conv_lhs => unfold tagEquivList

theorem tagEquivList_cons_nil (c : Element) (r : List Element) :
    tagEquivList (c :: r) [] = false := by
  conv_lhs => unfold tagEquivList

theorem tagEquiv_destruct (e1 e2 : Element) (h : tagEquiv e1 e2 = true) :
    localName e1.tag = localName e2.tag ∧ e1.attrib = e2.attrib ∧ e1.text = e2.text ∧
      tagEquivList e1.children e2.children = true := by
  cases e1 with | mk t1 a1 x1 cs1 =>
  cases e2 with | mk t2 a2 x2 cs2 =>
  rw [tagEquiv_eq] at h
  simp only [Bool.and_eq_true, decide_eq_true_eq] at h
  exact ⟨h.1.1.1, h.1.1.2, h.1.2, h.2⟩

theorem tagEquiv_intro (e1 e2 : Element)
    (h1 : localName e1.tag = localName e2.tag) (h2 : e1.attrib = e2.attrib)
    (h3 : e1.text = e2.text) (h4 : tagEquivList e1.children e2.children = true) :
    tagEquiv e1 e2 = true := by
  cases e1 with | mk t1 a1 x1 cs1 =>
  cases e2 with | mk t2 a2 x2 cs2 =>
  rw [tagEquiv_eq]
  simp only [Bool.and_eq_true, decide_eq_true_eq]
  simp only [tag_mk, attrib_mk, text_mk, children_mk] at h1 h2 h3 h4
  exact ⟨⟨⟨h1, h2⟩, h3⟩, h4⟩

theorem findChild_equiv (nm : String) :
    ∀ (cs1 cs2 : List Element), tagEquivList cs1 cs2 = true →
      (findChild nm cs1 = none ∧ findChild nm cs2 = none) ∨
      (∃ c1 c2, findChild nm cs1 = some c1 ∧ findChild nm cs2 = some c2 ∧
        tagEquiv c1 c2 = true) := by
  intro cs1
  induction cs1 with
  | nil =>
    intro cs2 h
    cases cs2 with
    | nil => exact Or.inl ⟨rfl, rfl⟩
    | cons c2 r2 => rw [tagEquivList_nil_cons] at h; cases h
  | cons c1 r1 ih =>
    intro cs2 h
    cases cs2 with
    | nil => rw [tagEquivList_cons_nil] at h; cases h
    | cons c2 r2 =>
      rw [tagEquivList_cons, Bool.and_eq_true] at h
      obtain ⟨hc, hr⟩ := h
      have hloc := (tagEquiv_destruct c1 c2 hc).1
      by_cases hmatch : localName c1.tag = nm
      · refine Or.inr ⟨c1, c2, ?_, ?_, hc⟩
        · conv_lhs => unfold findChild
          rw [if_pos hmatch]
        · conv_lhs => unfold findChild
          rw [if_pos (hloc ▸ hmatch)]
      · have h2 : findChild nm (c1 :: r1) = findChild nm r1 := by
          conv_lhs => unfold findChild
          rw [if_neg hmatch]
        have h3 : findChild nm (c2 :: r2) = findChild nm r2 := by
          conv_lhs => unfold findChild
          rw [if_neg (hloc ▸ hmatch)]
        rw [h2, h3]
        exact ih r2 hr

theorem get_child_equiv (e1 e2 : Element) (nm : String) (h : tagEquiv e1 e2 = true) :
    (get_child e1 nm = none ∧ get_child e2 nm = none) ∨
    (∃ c1 c2, get_child e1 nm = some c1 ∧ get_child e2 nm = some c2 ∧
      tagEquiv c1 c2 = true) :=
  findChild_equiv nm e1.children e2.children (tagEquiv_destruct e1 e2 h).2.2.2

theorem get_child_text_equiv (e1 e2 : Element) (nm : String) (h : tagEquiv e1 e2 = true) :
    get_child_text e1 nm = get_child_text e2 nm := by
  unfold get_child_text
  rcases get_child_equiv e1 e2 nm h with ⟨h1, h2⟩ | ⟨c1, c2, h1, h2, hc⟩
  · rw [h1, h2]
  · rw [h1, h2]
    show pyStrip (c1.text.getD "") = pyStrip (c2.text.getD "")
    rw [(tagEquiv_destruct c1 c2 hc).2.2.1]

theorem resolveRaw_equiv (e1 e2 : Element) (k : String) (h : tagEquiv e1 e2 = true) :
    resolveRaw e1 k = resolveRaw e2 k := by
  unfold resolveRaw
  rw [(tagEquiv_destruct e1 e2 h).2.1, get_child_text_equiv e1 e2 k h]

theorem coercedVal_equiv (e1 e2 : Element) (k : String) (h : tagEquiv e1 e2 = true) :
    coercedVal e1 k = coercedVal e2 k := by
  unfold coercedVal
  rw [resolveRaw_equiv e1 e2 k h]

theorem tagEquiv_withText (c1 c2 : Element) (x : Option String)
    (h : tagEquiv c1 c2 = true) :
    tagEquiv (c1.withText x) (c2.withText x) = true := by
  obtain ⟨h1, h2, h3, h4⟩ := tagEquiv_destruct c1 c2 h
  refine tagEquiv_intro _ _ ?_ ?_ ?_ ?_
  · rw [withText_tag, withText_tag]; exact h1
  · rw [withText_attrib, withText_attrib]; exact h2
  · rw [withText_text, withText_text]
  · rw [withText_children, withText_children]; exact h4

theorem setTextFirst_equiv (nm v ns1 ns2 : String)
    (hns : localName (ns1 ++ nm) = localName (ns2 ++ nm)) :
    ∀ cs1 cs2, tagEquivList cs1 cs2 = true →
      tagEquivList (setTextFirst ns1 nm v cs1) (setTextFirst ns2 nm v cs2) = true := by
  intro cs1
  induction cs1 with
  | nil =>
    intro cs2 h
    cases cs2 with
    | nil =>
      show tagEquivList [Element.mk (ns1 ++ nm) [] (some v) []]
        [Element.mk (ns2 ++ nm) [] (some v) []] = true
      rw [tagEquivList_cons, tagEquivList_nil, Bool.and_true]
      exact tagEquiv_intro _ _ hns rfl rfl tagEquivList_nil
    | cons c2 r2 => rw [tagEquivList_nil_cons] at h; cases h
  | cons c1 r1 ih =>
    intro cs2 h
    cases cs2 with
    | nil => rw [tagEquivList_cons_nil] at h; cases h
    | cons c2 r2 =>
      rw [tagEquivList_cons, Bool.and_eq_true] at h
      obtain ⟨hc, hr⟩ := h
      have hloc := (tagEquiv_destruct c1 c2 hc).1
      by_cases hm : localName c1.tag = nm
      · rw [show setTextFirst ns1 nm v (c1 :: r1) = c1.withText (some v) :: r1 from by
            simp [setTextFirst, hm],
          show setTextFirst ns2 nm v (c2 :: r2) = c2.withText (some v) :: r2 from by
            simp [setTextFirst, hloc ▸ hm],
          tagEquivList_cons, tagEquiv_withText c1 c2 _ hc, hr, Bool.and_self]
      · rw [show setTextFirst ns1 nm v (c1 :: r1) = c1 :: setTextFirst ns1 nm v r1 from by
            simp [setTextFirst, hm],
          show setTextFirst ns2 nm v (c2 :: r2) = c2 :: setTextFirst ns2 nm v r2 from by
            simp [setTextFirst, hloc ▸ hm],
          tagEquivList_cons, hc, ih r2 hr, Bool.and_self]

theorem setFirstChildText_equiv (e1 e2 : Element) (nm v : String)
    (hb : nm.data.contains '}' = false) (h : tagEquiv e1 e2 = true) :
    tagEquiv (setFirstChildText e1 nm v) (setFirstChildText e2 nm v) = true := by
  obtain ⟨h1, h2, h3, h4⟩ := tagEquiv_destruct e1 e2 h
  refine tagEquiv_intro _ _ ?_ ?_ ?_ ?_
  · rw [setFirstChildText_tag, setFirstChildText_tag]; exact h1
  · rw [setFirstChildText_attrib, setFirstChildText_attrib]; exact h2
  · rw [setFirstChildText_text, setFirstChildText_text]; exact h3
  · rw [setFirstChildText_children, setFirstChildText_children]
    refine setTextFirst_equiv nm v _ _ ?_ _ _ h4
    rw [localName_childNS_append _ _ hb, localName_childNS_append _ _ hb]

theorem setAttrV_equiv (e1 e2 : Element) (k v : String) (h : tagEquiv e1 e2 = true) :
    tagEquiv (e1.setAttrV k v) (e2.setAttrV k v) = true := by
  obtain ⟨h1, h2, h3, h4⟩ := tagEquiv_destruct e1 e2 h
  refine tagEquiv_intro _ _ ?_ ?_ ?_ ?_
  · rw [setAttrV_tag, setAttrV_tag]; exact h1
  · rw [setAttrV_attrib, setAttrV_attrib, h2]
  · rw [setAttrV_text, setAttrV_text]; exact h3
  · rw [setAttrV_children, setAttrV_children]; exact h4

theorem setIfDiff_equiv (e1 e2 : Element) (k v : String) (h : tagEquiv e1 e2 = true) :
    tagEquiv (setIfDiff e1 k v).1 (setIfDiff e2 k v).1 = true ∧
      (setIfDiff e1 k v).2 = (setIfDiff e2 k v).2 := by
  have h2 := (tagEquiv_destruct e1 e2 h).2.1
  unfold setIfDiff
  rw [h2]
  by_cases hc : getAttr e2.attrib k = some v
  · rw [if_pos hc, if_pos hc]
    exact ⟨h, rfl⟩
  · rw [if_neg hc, if_neg hc]
    exact ⟨setAttrV_equiv e1 e2 k v h, rfl⟩

theorem attr3_shape (s : Element) :
    attr3 s =
      ((setIfDiff (setIfDiff (setIfDiff s "latitude" (coercedVal s "latitude")).1
          "longitude" (coercedVal s "longitude")).1 "elevation" (coercedVal s "elevation")).1,
        (setIfDiff s "latitude" (coercedVal s "latitude")).2 ||
        (setIfDiff (setIfDiff s "latitude" (coercedVal s "latitude")).1
          "longitude" (coercedVal s "longitude")).2 ||
        (setIfDiff (setIfDiff (setIfDiff s "latitude" (coercedVal s "latitude")).1
          "longitude" (coercedVal s "longitude")).1 "elevation"
          (coercedVal s "elevation")).2) := rfl

theorem attr3_equiv (e1 e2 : Element) (h : tagEquiv e1 e2 = true) :
    tagEquiv (attr3 e1).1 (attr3 e2).1 = true ∧ (attr3 e1).2 = (attr3 e2).2 := by
  have hv1 := coercedVal_equiv e1 e2 "latitude" h
  have hv2 := coercedVal_equiv e1 e2 "longitude" h
  have hv3 := coercedVal_equiv e1 e2 "elevation" h
  obtain ⟨d1f, d1s⟩ := setIfDiff_equiv e1 e2 "latitude" (coercedVal e1 "latitude") h
  obtain ⟨d2f, d2s⟩ := setIfDiff_equiv _ _ "longitude" (coercedVal e1 "longitude") d1f
  obtain ⟨d3f, d3s⟩ := setIfDiff_equiv _ _ "elevation" (coercedVal e1 "elevation") d2f
  constructor
  · rw [show (attr3 e1).1 = (setIfDiff (setIfDiff (setIfDiff e1 "latitude"
        (coercedVal e1 "latitude")).1 "longitude" (coercedVal e1 "longitude")).1
        "elevation" (coercedVal e1 "elevation")).1 from by rw [attr3_shape],
      show (attr3 e2).1 = (setIfDiff (setIfDiff (setIfDiff e2 "latitude"
        (coercedVal e2 "latitude")).1 "longitude" (coercedVal e2 "longitude")).1
        "elevation" (coercedVal e2 "elevation")).1 from by rw [attr3_shape],
      ← hv1, ← hv2, ← hv3]
    exact d3f
  · rw [show (attr3 e1).2 = ((setIfDiff e1 "latitude" (coercedVal e1 "latitude")).2 ||
        (setIfDiff (setIfDiff e1 "latitude" (coercedVal e1 "latitude")).1
          "longitude" (coercedVal e1 "longitude")).2 ||
        (setIfDiff (setIfDiff (setIfDiff e1 "latitude" (coercedVal e1 "latitude")).1
          "longitude" (coercedVal e1 "longitude")).1 "elevation"
          (coercedVal e1 "elevation")).2) from by rw [attr3_shape],
      show (attr3 e2).2 = ((setIfDiff e2 "latitude" (coercedVal e2 "latitude")).2 ||
        (setIfDiff (setIfDiff e2 "latitude" (coercedVal e2 "latitude")).1
          "longitude" (coercedVal e2 "longitude")).2 ||
        (setIfDiff (setIfDiff (setIfDiff e2 "latitude" (coercedVal e2 "latitude")).1
          "longitude" (coercedVal e2 "longitude")).1 "elevation"
          (coercedVal e2 "elevation")).2) from by rw [attr3_shape],
      ← hv1, ← hv2, ← hv3, d1s, d2s, d3s]

theorem stationCode_equiv (e1 e2 : Element) (b : Bool) (h : tagEquiv e1 e2 = true) :
    tagEquiv (stationCode e1 b).1 (stationCode e2 b).1 = true ∧
      (stationCode e1 b).2 = (stationCode e2 b).2 := by
  have ha := (tagEquiv_destruct e1 e2 h).2.1
  have hct := get_child_text_equiv e1 e2 "code" h
  unfold stationCode
  rw [ha, hct]
  by_cases h1 : getAttr e2.attrib "code" = none ∨ getAttr e2.attrib "code" = some ""
  · by_cases h2 : get_child_text e2 "code" = ""
    · rw [if_pos h1, if_pos h2, if_pos h1, if_pos h2]
      exact ⟨h, rfl⟩
    · rw [if_pos h1, if_neg h2, if_pos h1, if_neg h2]
      exact ⟨setAttrV_equiv e1 e2 _ _ h, rfl⟩
  · rw [if_neg h1, if_neg h1]
    exact ⟨h, rfl⟩

theorem mirror3_equiv (e1 e2 : Element) (lv lov ev : String) (h : tagEquiv e1 e2 = true) :
    tagEquiv (mirror3 e1 lv lov ev) (mirror3 e2 lv lov ev) = true := by
  unfold mirror3
  exact setFirstChildText_equiv _ _ _ _ (by decide)
    (setFirstChildText_equiv _ _ _ _ (by decide)
      (setFirstChildText_equiv _ _ _ _ (by decide) h))

theorem force_equiv (e1 e2 : Element) (h : tagEquiv e1 e2 = true) :
    tagEquiv (force_station_numeric_attrs e1).1 (force_station_numeric_attrs e2).1 = true ∧
      (force_station_numeric_attrs e1).2 = (force_station_numeric_attrs e2).2 := by
  have hv1 := coercedVal_equiv e1 e2 "latitude" h
  have hv2 := coercedVal_equiv e1 e2 "longitude" h
  have hv3 := coercedVal_equiv e1 e2 "elevation" h
  obtain ⟨haf, has⟩ := attr3_equiv e1 e2 h
  have hm : tagEquiv
      (mirror3 (attr3 e1).1 (coercedVal e1 "latitude") (coercedVal e1 "longitude")
        (coercedVal e1 "elevation"))
      (mirror3 (attr3 e2).1 (coercedVal e2 "latitude") (coercedVal e2 "longitude")
        (coercedVal e2 "elevation")) = true := by
    rw [← hv1, ← hv2, ← hv3]
    exact mirror3_equiv _ _ _ _ _ haf
  unfold force_station_numeric_attrs
  rw [has]
  exact stationCode_equiv _ _ _ hm

theorem promoteCode_equiv (e1 e2 : Element) (h : tagEquiv e1 e2 = true) :
    tagEquiv (promoteCode e1) (promoteCode e2) = true := by
  have ha := (tagEquiv_destruct e1 e2 h).2.1
  have hct := get_child_text_equiv e1 e2 "code" h
  unfold promoteCode
  rw [ha, hct]
  by_cases h1 : getAttr e2.attrib "code" = none ∨ getAttr e2.attrib "code" = some ""
  · by_cases h2 : get_child_text e2 "code" = ""
    · rw [if_pos h1, if_pos h2, if_pos h1, if_pos h2]
      exact h
    · rw [if_pos h1, if_neg h2, if_pos h1, if_neg h2]
      exact setAttrV_equiv e1 e2 _ _ h
  · rw [if_neg h1, if_neg h1]
    exact h

theorem streamVal_equiv (e1 e2 : Element) (h : tagEquiv e1 e2 = true) :
    streamVal e1 = streamVal e2 := by
  unfold streamVal streamFNum streamFDen
  rw [get_child_text_equiv e1 e2 "sampleratenumerator" h,
      get_child_text_equiv e1 e2 "sampleratedenominator" h]

theorem fixNumChild_equiv (e1 e2 : Element) (nm : String)
    (hb : nm.data.contains '}' = false) (h : tagEquiv e1 e2 = true) :
    tagEquiv (fixNumChild e1 nm) (fixNumChild e2 nm) = true := by
  rcases get_child_equiv e1 e2 nm h with ⟨h1, h2⟩ | ⟨c1, c2, h1, h2, hc⟩
  · rw [fixNumChild_eq_none _ _ h1, fixNumChild_eq_none _ _ h2]
    exact setFirstChildText_equiv _ _ _ _ hb h
  · rw [fixNumChild_eq_some _ _ _ h1, fixNumChild_eq_some _ _ _ h2,
        (tagEquiv_destruct c1 c2 hc).2.2.1]
    by_cases hf : is_float (pyStrip (c2.text.getD "")) = true
    · rw [if_pos hf, if_pos hf]
      exact h
    · rw [if_neg hf, if_neg hf]
      exact setFirstChildText_equiv _ _ _ _ hb h

theorem srStep_equiv (e1 e2 : Element) (h : tagEquiv e1 e2 = true) :
    tagEquiv (srStep e1) (srStep e2) = true := by
  have hval := streamVal_equiv e1 e2 h
  rcases get_child_equiv e1 e2 "samplerate" h with ⟨h1, h2⟩ | ⟨c1, c2, h1, h2, hc⟩
  · rw [srStep_eq_none _ h1, srStep_eq_none _ h2, hval]
    exact setFirstChildText_equiv _ _ _ _ (by decide) h
  · rw [srStep_eq_some _ _ h1, srStep_eq_some _ _ h2,
        (tagEquiv_destruct c1 c2 hc).2.2.1, hval]
    by_cases hf : is_float (pyStrip (c2.text.getD "")) = true
    · rw [if_pos hf, if_pos hf]
      exact h
    · rw [if_neg hf, if_neg hf]
      exact setFirstChildText_equiv _ _ _ _ (by decide) h

theorem fix_stream_equiv (e1 e2 : Element) (h : tagEquiv e1 e2 = true) :
    tagEquiv (fix_stream e1) (fix_stream e2) = true := by
  unfold fix_stream
  exact promoteCode_equiv _ _ (srStep_equiv _ _
    (fixNumChild_equiv _ _ _ (by decide) (fixNumChild_equiv _ _ _ (by decide) h)))

theorem childCtx_congr (p : Ctx) (t1 t2 : String) (h : localName t1 = localName t2) :
    childCtx p t1 = childCtx p t2 := by
  unfold childCtx
  rw [h]

theorem nodeFix_equiv (p : Ctx) (f : Bool) (e1 e2 : Element) (h : tagEquiv e1 e2 = true) :
    tagEquiv (nodeFix p f e1) (nodeFix p f e2) = true := by
  have hloc := (tagEquiv_destruct e1 e2 h).1
  by_cases h1 : localName e1.tag = "network"
  · rw [nodeFix_net p f e1 h1, nodeFix_net p f e2 (by rw [← hloc]; exact h1)]
    exact promoteCode_equiv _ _ h
  · by_cases h2 : p = Ctx.net ∧ localName e1.tag = "station"
    · rw [nodeFix_sta p f e1 h1 h2, nodeFix_sta p f e2 (by rw [← hloc]; exact h1)
        ⟨h2.1, by rw [← hloc]; exact h2.2⟩]
      exact (force_equiv _ _ h).1
    · by_cases h3 : f = true ∧ p = Ctx.sta ∧ localName e1.tag = "sensorlocation"
      · rw [nodeFix_sl p f e1 h1 h2 h3, nodeFix_sl p f e2 (by rw [← hloc]; exact h1)
          (by rw [← hloc]; exact h2) ⟨h3.1, h3.2.1, by rw [← hloc]; exact h3.2.2⟩]
        exact promoteCode_equiv _ _ h
      · by_cases h4 : f = true ∧ p = Ctx.sl ∧ localName e1.tag = "stream"
        · rw [nodeFix_stream p f e1 h1 h2 h3 h4, nodeFix_stream p f e2
            (by rw [← hloc]; exact h1) (by rw [← hloc]; exact h2)
            (by rw [← hloc]; exact h3) ⟨h4.1, h4.2.1, by rw [← hloc]; exact h4.2.2⟩]
          exact fix_stream_equiv _ _ h
        · rw [nodeFix_id p f e1 h1 h2 h3 h4, nodeFix_id p f e2 (by rw [← hloc]; exact h1)
            (by rw [← hloc]; exact h2) (by rw [← hloc]; exact h3) (by rw [← hloc]; exact h4)]
          exact h

theorem processList_equiv_aux (f : Bool) (q : Ctx) :
    ∀ (l1 : List Element),
      (∀ c ∈ l1, ∀ (c2 : Element) (f' : Bool) (p' : Ctx), tagEquiv c c2 = true →
        tagEquiv (processTree f' p' c) (processTree f' p' c2) = true) →
      ∀ l2, tagEquivList l1 l2 = true →
        tagEquivList (processList f q l1) (processList f q l2) = true := by
  intro l1
  induction l1 with
  | nil =>
    intro _ l2 h
    cases l2 with
    | nil => exact tagEquivList_nil
    | cons c2 r2 => rw [tagEquivList_nil_cons] at h; cases h
  | cons c1 r1 ih =>
    intro hIH l2 h
    cases l2 with
    | nil => rw [tagEquivList_cons_nil] at h; cases h
    | cons c2 r2 =>
      rw [tagEquivList_cons, Bool.and_eq_true] at h
      rw [processList_cons, processList_cons, tagEquivList_cons,
          hIH c1 (List.mem_cons_self _ _) c2 f q h.1,
          ih (fun c hc => hIH c (List.mem_cons_of_mem _ hc)) r2 h.2, Bool.and_self]

/-- The pass recognizes and fixes equivalent documents identically,
whatever namespaces and letter case their tags use. -/
theorem processTree_equiv (e1 : Element) :
    ∀ (e2 : Element) (f : Bool) (p : Ctx), tagEquiv e1 e2 = true →
      tagEquiv (processTree f p e1) (processTree f p e2) = true := by
  induction e1 using Element.induct with
  | h t a x cs IH =>
  intro e2 f p h
  cases e2 with
  | mk t2 a2 x2 cs2 =>
    obtain ⟨h1, h2, h3, h4⟩ := tagEquiv_destruct _ _ h
    simp only [tag_mk, attrib_mk, text_mk, children_mk] at h1 h2 h3 h4
    rw [processTree_eq, processTree_eq]
    apply nodeFix_equiv
    refine tagEquiv_intro _ _ ?_ ?_ ?_ ?_
    · rw [tag_mk, tag_mk]; exact h1
    · rw [attrib_mk, attrib_mk]; exact h2
    · rw [text_mk, text_mk]; exact h3
    · rw [children_mk, children_mk, ← childCtx_congr p t t2 h1]
      exact processList_equiv_aux f _ cs IH cs2 h4

theorem countList_equiv_aux (f : Bool) (q : Ctx) :
    ∀ (l1 : List Element),
      (∀ c ∈ l1, ∀ (c2 : Element) (f' : Bool) (p' : Ctx), tagEquiv c c2 = true →
        countTree f' p' c = countTree f' p' c2) →
      ∀ l2, tagEquivList l1 l2 = true → countList f q l1 = countList f q l2 := by
  intro l1
  induction l1 with
  | nil =>
    intro _ l2 h
    cases l2 with
    | nil => rfl
    | cons c2 r2 => rw [tagEquivList_nil_cons] at h; cases h
  | cons c1 r1 ih =>
    intro hIH l2 h
    cases l2 with
    | nil => rw [tagEquivList_cons_nil] at h; cases h
    | cons c2 r2 =>
      rw [tagEquivList_cons, Bool.and_eq_true] at h
      rw [countList_cons, countList_cons, hIH c1 (List.mem_cons_self _ _) c2 f q h.1,
          ih (fun c hc => hIH c (List.mem_cons_of_mem _ hc)) r2 h.2]

/-- Equivalent documents produce identical counters. -/
theorem countTree_equiv (e1 : Element) :
    ∀ (e2 : Element) (f : Bool) (p : Ctx), tagEquiv e1 e2 = true →
      countTree f p e1 = countTree f p e2 := by
  induction e1 using Element.induct with
  | h t a x cs IH =>
  intro e2 f p h
  cases e2 with
  | mk t2 a2 x2 cs2 =>
    have hff := (force_equiv (Element.mk t a x cs) (Element.mk t2 a2 x2 cs2) h).2
    obtain ⟨h1, h2, h3, h4⟩ := tagEquiv_destruct _ _ h
    simp only [tag_mk, attrib_mk, text_mk, children_mk] at h1 h2 h3 h4
    rw [countTree_eq, countTree_eq, h1, hff, ← childCtx_congr p t t2 h1,
        countList_equiv_aux f _ cs IH cs2 h4]

/-! ## The verification scan -/

theorem opt_or_none {α : Type} (x : Option α) : Option.or x none = x := by
  cases x <;> rfl

theorem opt_or_assoc {α : Type} (x y z : Option α) :
    Option.or (Option.or x y) z = Option.or x (Option.or y z) := by
  cases x <;> rfl

theorem opt_map_or {α β : Type} (f : α → β) (x y : Option α) :
    (Option.or x y).map f = Option.or (x.map f) (y.map f) := by
  cases x <;> rfl

theorem find?_append {α : Type} (p : α → Bool) (l1 l2 : List α) :
    (l1 ++ l2).find? p = Option.or (l1.find? p) (l2.find? p) := by
  induction l1 with
  | nil => rfl
  | cons a r ih =>
    by_cases hp : p a
    · rw [List.cons_append, List.find?_cons_of_pos _ hp, List.find?_cons_of_pos _ hp]
      rfl
    · rw [List.cons_append, List.find?_cons_of_neg _ hp, List.find?_cons_of_neg _ hp, ih]

theorem verifyStations_nil (nc : String) (s : VState) : verifyStations nc s [] = s := by
  conv_lhs => unfold verifyStations

theorem verifyStations_cons (nc : String) (s : VState) (t : String)
    (a : List (String × String)) (x : Option String) (cc r : List Element) :
    verifyStations nc s (Element.mk t a x cc :: r) =
      (if localName t = "station" then
        if staCheck a then
          verifyStations nc (s.1, if s.2 = none then some (exRecord nc a) else s.2) r
        else verifyStations nc (s.1 + 1, s.2) r
       else verifyStations nc s r) := by
  conv_lhs => unfold verifyStations

theorem stationChildren_nil (nc : String) : stationChildren nc [] = [] := by
  conv_lhs => unfold stationChildren

theorem stationChildren_cons (nc : String) (t : String) (a : List (String × String))
    (x : Option String) (cc r : List Element) :
    stationChildren nc (Element.mk t a x cc :: r) =
      (if localName t = "station" then [(nc, a)] else []) ++ stationChildren nc r := by
  conv_lhs => unfold stationChildren

theorem verifyStations_char (nc : String) :
    ∀ (cs : List Element) (b : Nat)
      (ex : Option (String × String × String × String × String)),
      verifyStations nc (b, ex) cs =
        (b + (stationChildren nc cs).countP (fun pr => !staCheck pr.2),
         Option.or ex (((stationChildren nc cs).find? (fun pr => staCheck pr.2)).map
           (fun pr => exRecord pr.1 pr.2))) := by
  intro cs
  induction cs with
  | nil =>
    intro b ex
    rw [verifyStations_nil, stationChildren_nil]
    simp only [List.countP_nil, List.find?_nil, Option.map_none', Nat.add_zero, opt_or_none]
  | cons c r ih =>
    intro b ex
    cases c with
    | mk t a x cc =>
      rw [verifyStations_cons, stationChildren_cons]
      by_cases hsta : localName t = "station"
      · rw [if_pos hsta, if_pos hsta,
          show ([(nc, a)] ++ stationChildren nc r) = (nc, a) :: stationChildren nc r from rfl]
        by_cases hok : staCheck a = true
        · have hcnt : ((nc, a) :: stationChildren nc r).countP
              (fun pr => !staCheck pr.2) =
              (stationChildren nc r).countP (fun pr => !staCheck pr.2) := by
            rw [List.countP_cons]
            simp [hok]
          have hfind : ((nc, a) :: stationChildren nc r).find?
              (fun pr => staCheck pr.2) = some (nc, a) :=
            List.find?_cons_of_pos _ hok
          rw [if_pos hok, hcnt, hfind]
          show verifyStations nc (b, if ex = none then some (exRecord nc a) else ex) r = _
          rw [ih b _]
          cases ex with
          | none => rfl
          | some v => rfl
        · have hf : staCheck a = false := by
            revert hok
            cases staCheck a <;> simp
          have hcnt : ((nc, a) :: stationChildren nc r).countP
              (fun pr => !staCheck pr.2) =
              (stationChildren nc r).countP (fun pr => !staCheck pr.2) + 1 := by
            rw [List.countP_cons]
            simp [hf]
          have hfind : ((nc, a) :: stationChildren nc r).find?
              (fun pr => staCheck pr.2) = (stationChildren nc r).find?
              (fun pr => staCheck pr.2) :=
            List.find?_cons_of_neg _ hok
          rw [if_neg hok, hcnt, hfind]
          show verifyStations nc (b + 1, ex) r = _
          rw [ih (b + 1) ex]
          have : b + 1 + (stationChildren nc r).countP (fun pr => !staCheck pr.2) =
              b + ((stationChildren nc r).countP (fun pr => !staCheck pr.2) + 1) := by
            omega
          rw [this]
      · rw [if_neg hsta, if_neg hsta, List.nil_append, ih b ex]

theorem verifyE_eq (s : VState) (t : String) (a : List (String × String))
    (x : Option String) (cs : List Element) :
    verifyE s (Element.mk t a x cs) =
      verifyList
        (if localName t = "network" then
          verifyStations ((getAttr a "code").getD "") s cs
         else s) cs := by
  conv_lhs => unfold verifyE

theorem verifyList_nil (s : VState) : verifyList s [] = s := by
  conv_lhs => unfold verifyList

theorem verifyList_cons (s : VState) (c : Element) (r : List Element) :
    verifyList s (c :: r) = verifyList (verifyE s c) r := by
  conv_lhs => unfold verifyList

theorem stationPairs_eq (t : String) (a : List (String × String)) (x : Option String)
    (cs : List Element) :
    stationPairs (Element.mk t a x cs) =
      (if localName t = "network" then
        stationChildren ((getAttr a "code").getD "") cs
       else []) ++ stationPairsList cs := by
  conv_lhs => unfold stationPairs

theorem stationPairsList_nil : stationPairsList [] = [] := by
  conv_lhs => unfold stationPairsList

theorem stationPairsList_cons (c : Element) (r : List Element) :
    stationPairsList (c :: r) = stationPairs c ++ stationPairsList r := by
  conv_lhs => unfold stationPairsList

theorem verifyList_char_aux (cs : List Element)
    (hIH : ∀ c ∈ cs, ∀ (b : Nat) (ex : Option (String × String × String × String × String)),
      verifyE (b, ex) c =
        (b + (stationPairs c).countP (fun pr => !staCheck pr.2),
         Option.or ex (((stationPairs c).find? (fun pr => staCheck pr.2)).map
           (fun pr => exRecord pr.1 pr.2)))) :
    ∀ (b : Nat) (ex : Option (String × String × String × String × String)),
      verifyList (b, ex) cs =
        (b + (stationPairsList cs).countP (fun pr => !staCheck pr.2),
         Option.or ex (((stationPairsList cs).find? (fun pr => staCheck pr.2)).map
           (fun pr => exRecord pr.1 pr.2))) := by
  induction cs with
  | nil =>
    intro b ex
    rw [verifyList_nil, stationPairsList_nil]
    simp only [List.countP_nil, List.find?_nil, Option.map_none', Nat.add_zero, opt_or_none]
  | cons c r ih =>
    intro b ex
    rw [verifyList_cons, stationPairsList_cons, hIH c (List.mem_cons_self _ _) b ex,
        ih (fun c' hc' => hIH c' (List.mem_cons_of_mem _ hc')),
        List.countP_append, find?_append, opt_map_or, ← opt_or_assoc, ← Nat.add_assoc]

/-- The verification scan, characterized: it counts exactly the
stations whose attribute triple does not parse, and remembers the
first passing station. -/
theorem verifyE_char (e : Element) :
    ∀ (b : Nat) (ex : Option (String × String × String × String × String)),
      verifyE (b, ex) e =
        (b + (stationPairs e).countP (fun pr => !staCheck pr.2),
         Option.or ex (((stationPairs e).find? (fun pr => staCheck pr.2)).map
           (fun pr => exRecord pr.1 pr.2))) := by
  induction e using Element.induct with
  | h t a x cs IH =>
  intro b ex
  rw [verifyE_eq, stationPairs_eq]
  by_cases hnet : localName t = "network"
  · rw [if_pos hnet, if_pos hnet,
        verifyStations_char ((getAttr a "code").getD "") cs b ex,
        verifyList_char_aux cs IH, List.countP_append, find?_append, opt_map_or,
        ← opt_or_assoc, ← Nat.add_assoc]
  · rw [if_neg hnet, if_neg hnet, List.nil_append, verifyList_char_aux cs IH]

theorem textMap_eq (f : Option String → Option String) (t : String)
    (a : List (String × String)) (x : Option String) (cs : List Element) :
    textMap f (Element.mk t a x cs) = Element.mk t a (f x) (textMapList f cs) := by
  conv_lhs => unfold textMap

theorem textMapList_nil (f : Option String → Option String) : textMapList f [] = [] := by
  conv_lhs => unfold textMapList

theorem textMapList_cons (f : Option String → Option String) (c : Element)
    (r : List Element) :
    textMapList f (c :: r) = textMap f c :: textMapList f r := by
  conv_lhs => unfold textMapList

theorem stationChildren_textMap (f : Option String → Option String) (nc : String) :
    ∀ cs, stationChildren nc (textMapList f cs) = stationChildren nc cs := by
  intro cs
  induction cs with
  | nil => rw [textMapList_nil]
  | cons c r ih =>
    cases c with
    | mk t a x cc =>
      rw [textMapList_cons, textMap_eq, stationChildren_cons, stationChildren_cons, ih]

theorem stationPairs_textMap (f : Option String → Option String) (e : Element) :
    stationPairs (textMap f e) = stationPairs e := by
  induction e using Element.induct with
  | h t a x cs IH =>
  have hlist : stationPairsList (textMapList f cs) = stationPairsList cs := by
    induction cs with
    | nil => rw [textMapList_nil]
    | cons c r ihr =>
      rw [textMapList_cons, stationPairsList_cons, stationPairsList_cons,
          IH c (List.mem_cons_self _ _),
          ihr (fun c' hc' => IH c' (List.mem_cons_of_mem _ hc'))]
  rw [textMap_eq, stationPairs_eq, stationPairs_eq, stationChildren_textMap, hlist]

/-! ## Remaining helpers for the claims -/

theorem streamFDen_ne0 (e : Element) : pyNe0 (streamFDen e) = true := by
  unfold streamFDen
  split_ifs with h
  · exact h.2
  · decide

theorem pyDivOpt_isSome (x y : PyFloat) (h : pyNe0 y = true) :
    (pyDivOpt x y).isSome = true := by
  cases y with
  | finite n d =>
    have hn : n ≠ 0 := by simpa [pyNe0, decide_eq_true_eq] using h
    cases x with
    | finite a b =>
      cases n with
      | ofNat m =>
        cases m with
        | zero => exact absurd rfl hn
        | succ k => rfl
      | negSucc m => rfl
    | nzero =>
      cases n with
      | ofNat m =>
        cases m with
        | zero => exact absurd rfl hn
        | succ k => rfl
      | negSucc m => rfl
    | inf =>
      cases n with
      | ofNat m =>
        cases m with
        | zero => exact absurd rfl hn
        | succ k => rfl
      | negSucc m => rfl
    | ninf =>
      cases n with
      | ofNat m =>
        cases m with
        | zero => exact absurd rfl hn
        | succ k => rfl
      | negSucc m => rfl
    | nan =>
      cases n with
      | ofNat m =>
        cases m with
        | zero => exact absurd rfl hn
        | succ k => rfl
      | negSucc m => rfl
  | nzero => simp [pyNe0] at h
  | inf => cases x <;> rfl
  | ninf => cases x <;> rfl
  | nan => cases x <;> rfl

theorem get_child_text_fixNumChild_other (e : Element) (nm nm' : String)
    (hb : nm.data.contains '}' = false) (hl : localName nm = nm) (hne : nm ≠ nm') :
    get_child_text (fixNumChild e nm) nm' = get_child_text e nm' :=
  get_child_text_congr _ _ _ (get_child_fixNumChild_other e nm nm' hb hl hne)

theorem streamVal_fixNumChild (e : Element) (nm : String)
    (hb : nm.data.contains '}' = false) (hl : localName nm = nm)
    (h1 : nm ≠ "sampleratenumerator") (h2 : nm ≠ "sampleratedenominator") :
    streamVal (fixNumChild e nm) = streamVal e := by
  unfold streamVal streamFNum streamFDen
  rw [get_child_text_fixNumChild_other e nm _ hb hl h1,
      get_child_text_fixNumChild_other e nm _ hb hl h2]

theorem streamFDen_fixNumChild (e : Element) (nm : String)
    (hb : nm.data.contains '}' = false) (hl : localName nm = nm)
    (h2 : nm ≠ "sampleratedenominator") :
    streamFDen (fixNumChild e nm) = streamFDen e := by
  unfold streamFDen
  rw [get_child_text_fixNumChild_other e nm _ hb hl h2]

theorem pyStrip_gct (e : Element) (nm : String) :
    pyStrip (get_child_text e nm) = get_child_text e nm := by
  unfold get_child_text
  cases get_child e nm with
  | some c => exact pyStrip_idem _
  | none => decide

theorem coercedVal_empty_attr (s : Element) (k : String)
    (h : getAttr s.attrib k = some "") :
    coercedVal s k = norm_num_or_default (get_child_text s k) "0.0" := by
  unfold coercedVal resolveRaw
  rw [h, Option.getD_some, if_pos rfl, pyStrip_gct]

/-! # Claims -/

/-- C1: after the normalization pass, every element whose local
(namespace-stripped, lower-cased) tag name is station and which is a
direct child of an element whose local name is network, at any depth,
carries latitude, longitude and elevation attributes whose values all
parse as floating-point numbers. -/
theorem claim_c1 (fixCh : Bool) (doc : Element) :
    allStationsOK false (processTree fixCh Ctx.other doc) = true := by
  have h := allStationsOK_processTree doc fixCh Ctx.other
  rwa [show (decide (Ctx.other = Ctx.net)) = false from by decide] at h

/-- C2, counterexample: a station whose latitude attribute is the text
nan keeps nan verbatim, although nan parses as a Python float while
lying outside the claimed literal forms of sign, digits, point,
fraction and exponent. -/
theorem claim_c2_counterexample :
    getAttr (force_station_numeric_attrs exStaNan).1.attrib "latitude" = some "nan" ∧
    specNumericForm "nan" = false ∧ is_float "nan" = true := by
  refine ⟨by decide, by decide, by decide⟩

/-- C2 as amended: each of latitude, longitude and elevation is
resolved from the attribute or the same-named child's trimmed text, and
is kept verbatim exactly when it parses as a Python float, a notion
that also accepts infinity and NaN spellings and underscores between
digits; every other value is replaced by the literal 0.0. -/
theorem claim_c2_amended (s : Element) :
    getAttr (force_station_numeric_attrs s).1.attrib "latitude" =
      some (if is_float (resolveRaw s "latitude") = true then resolveRaw s "latitude"
            else "0.0") ∧
    getAttr (force_station_numeric_attrs s).1.attrib "longitude" =
      some (if is_float (resolveRaw s "longitude") = true then resolveRaw s "longitude"
            else "0.0") ∧
    getAttr (force_station_numeric_attrs s).1.attrib "elevation" =
      some (if is_float (resolveRaw s "elevation") = true then resolveRaw s "elevation"
            else "0.0") :=
  ⟨force_getAttr_lat s, force_getAttr_lon s, force_getAttr_ele s⟩

/-- C3, counterexample: a stream with numerator text inf and no
sampleRate child receives the sampleRate text inf, an infinity
representation. -/
theorem claim_c3_counterexample :
    (get_child (fix_stream exStreamInf) "samplerate").map (fun c => c.text.getD "") =
      some "inf" ∧ pyFloatParse "inf" = some PyFloat.inf := by
  refine ⟨by decide, by decide⟩

/-- C3 as amended: for a stream with no numeric sampleRate child the
rate is numerator over denominator with the claimed defaulting, the
denominator used is never zero so the division is always defined and
never raises, and the written text is the 6-digit rendering of that
value; however that text can be an infinity or NaN representation when
the numerator text itself parses as infinite or NaN. -/
theorem claim_c3_amended (st : Element) (h : noNumericSR st = true) :
    pyNe0 (streamFDen st) = true ∧
    (pyDivOpt (streamFNum st) (streamFDen st)).isSome = true ∧
    (get_child (fix_stream st) "samplerate").map (fun c => c.text.getD "") =
      some (fmt6 (streamVal st)) := by
  refine ⟨streamFDen_ne0 st, pyDivOpt_isSome _ _ (streamFDen_ne0 st), ?_⟩
  have hval : streamVal (fixNumChild (fixNumChild st "azimuth") "dip") = streamVal st := by
    rw [streamVal_fixNumChild _ "dip" (by decide) (by decide) (by decide) (by decide),
        streamVal_fixNumChild _ "azimuth" (by decide) (by decide) (by decide) (by decide)]
  have hgc : get_child (fixNumChild (fixNumChild st "azimuth") "dip") "samplerate" =
      get_child st "samplerate" := by
    rw [get_child_fixNumChild_other _ "dip" _ (by decide) (by decide) (by decide),
        get_child_fixNumChild_other _ "azimuth" _ (by decide) (by decide) (by decide)]
  unfold fix_stream
  rw [get_child_promoteCode]
  unfold noNumericSR at h
  cases hsr : get_child st "samplerate" with
  | none =>
    rw [srStep_eq_none _ (by rw [hgc]; exact hsr), hval]
    obtain ⟨c, h1, h2, _, _⟩ := get_child_setFirstChildText_self
      (fixNumChild (fixNumChild st "azimuth") "dip") "samplerate" (fmt6 (streamVal st))
      (by decide) (by decide)
    rw [h1, Option.map_some', h2, Option.getD_some]
  | some c0 =>
    rw [hsr] at h
    have h' : (!is_float (pyStrip (c0.text.getD ""))) = true := h
    have hnf : ¬ is_float (pyStrip (c0.text.getD "")) = true := by
      intro hc
      rw [hc] at h'
      exact absurd h' (by decide)
    rw [srStep_eq_some _ c0 (by rw [hgc]; exact hsr), if_neg hnf, hval]
    obtain ⟨c, h1, h2, _, _⟩ := get_child_setFirstChildText_self
      (fixNumChild (fixNumChild st "azimuth") "dip") "samplerate" (fmt6 (streamVal st))
      (by decide) (by decide)
    rw [h1, Option.map_some', h2, Option.getD_some]

/-- C3, witness: a stream with denominator text 0 and numerator 100
gets the rate computed with denominator 1.0, so the text is
100.000000. -/
theorem claim_c3_witness :
    noNumericSR exStreamDen0 = true ∧
    pyNe0 (streamFDen exStreamDen0) = true ∧
    (get_child (fix_stream exStreamDen0) "samplerate").map (fun c => c.text.getD "") =
      some (fmt6 (streamVal exStreamDen0)) ∧
    fmt6 (streamVal exStreamDen0) = "100.000000" :=
  ⟨by decide, (claim_c3_amended exStreamDen0 (by decide)).1,
   (claim_c3_amended exStreamDen0 (by decide)).2.2, by decide⟩

/-- C4: running the normalization a second time on the first run's
output changes nothing, in particular every station's latitude,
longitude and elevation attribute values stay byte-for-byte identical,
and the stations-fixed tally of the second run is 0. -/
theorem claim_c4 (fixCh : Bool) (p : Ctx) (doc : Element) :
    processTree fixCh p (processTree fixCh p doc) = processTree fixCh p doc ∧
    (countTree fixCh p (processTree fixCh p doc)).fixed = 0 :=
  ⟨processTree_idem doc fixCh p, countTree_fixed_processTree doc fixCh p⟩

/-- C5: element role matching is invariant under namespace and letter
case; on documents equivalent up to namespaces and case of tags, the
pass fixes the same stations with the same resulting attribute values
and produces the same counters. -/
theorem claim_c5 (d1 d2 : Element) (fixCh : Bool) (p : Ctx)
    (h : tagEquiv d1 d2 = true) :
    tagEquiv (processTree fixCh p d1) (processTree fixCh p d2) = true ∧
    countTree fixCh p d1 = countTree fixCh p d2 :=
  ⟨processTree_equiv d1 d2 fixCh p h, countTree_equiv d1 d2 fixCh p h⟩

/-- C5, witness: a document using the tag STATION in the namespace
http://example/ns is processed identically to one using unprefixed
lowercase station. -/
theorem claim_c5_witness :
    tagEquiv exDocNs exDocPlain = true ∧
    tagEquiv (processTree false Ctx.other exDocNs)
      (processTree false Ctx.other exDocPlain) = true ∧
    countTree false Ctx.other exDocNs = countTree false Ctx.other exDocPlain :=
  ⟨by decide, (claim_c5 exDocNs exDocPlain false Ctx.other (by decide)).1,
   (claim_c5 exDocNs exDocPlain false Ctx.other (by decide)).2⟩

/-- C6: after force_station_numeric_attrs, each geographic attribute
value equals the text of the first same-named child, which is created
with the parent's namespace when absent. -/
theorem claim_c6 (s : Element) (nm : String)
    (h : nm = "latitude" ∨ nm = "longitude" ∨ nm = "elevation") :
    ∃ c, get_child (force_station_numeric_attrs s).1 nm = some c ∧
      getAttr (force_station_numeric_attrs s).1.attrib nm = some (coercedVal s nm) ∧
      c.text = some (coercedVal s nm) ∧
      (get_child s nm = none → c.tag = childNS s.tag ++ nm) := by
  rcases h with rfl | rfl | rfl
  · obtain ⟨c, h1, h2, h3⟩ := force_getChild_lat s
    exact ⟨c, h1, force_getAttr_lat s, h2, h3⟩
  · obtain ⟨c, h1, h2, h3⟩ := force_getChild_lon s
    exact ⟨c, h1, force_getAttr_lon s, h2, h3⟩
  · obtain ⟨c, h1, h2, h3⟩ := force_getChild_ele s
    exact ⟨c, h1, force_getAttr_ele s, h2, h3⟩

/-- C6, witness: on a station carrying only a latitude attribute 7.5,
the attribute and the created child's text agree. -/
theorem claim_c6_witness :
    (get_child (force_station_numeric_attrs exSta6).1 "latitude").map Element.text =
      some (some "7.5") ∧
    getAttr (force_station_numeric_attrs exSta6).1.attrib "latitude" = some "7.5" := by
  obtain ⟨c, h1, h2, h3, h4⟩ := claim_c6 exSta6 "latitude" (Or.inl rfl)
  have hv : coercedVal exSta6 "latitude" = "7.5" := by decide
  rw [hv] at h2 h3
  exact ⟨by rw [h1, Option.map_some', h3], h2⟩

set_option maxRecDepth 100000 in
/-- C7: a stream with sampleRateNumerator 100 and sampleRateDenominator
1 and no sampleRate child receives the sampleRate text 100.000000. -/
theorem claim_c7 :
    (get_child (fix_stream exStream7) "samplerate").map (fun c => c.text.getD "") =
      some "100.000000" := by
  decide

/-- C8: the verification scan is a pure function of tags and attribute
values only: its result is unchanged under arbitrary rewriting of every
text field, it counts a station as invalid exactly when the three
attributes do not all parse as floats, and it remembers the first valid
station as the example. -/
theorem claim_c8 (e : Element) (f : Option String → Option String) :
    verifyE (0, none) (textMap f e) =
      ((stationPairs e).countP (fun pr => !staCheck pr.2),
       ((stationPairs e).find? (fun pr => staCheck pr.2)).map
         (fun pr => exRecord pr.1 pr.2)) := by
  rw [verifyE_char (textMap f e) 0 none, stationPairs_textMap f e, Nat.zero_add]
  rfl

/-- C9: a missing input path terminates the run with exit status 1 and
only the explanatory message, before any parse attempt or output write;
an input that exists and parses ends with exit status 0 after the
summary. -/
theorem claim_c9 (parsed : Option Element) (fixCh : Bool) (d : Element) :
    runMain false parsed fixCh = ([MainEvent.errorExit "Input not found"], 1) ∧
    (runMain true (some d) fixCh).2 = 0 ∧
    MainEvent.wroteOutput (processTree fixCh Ctx.other d) ∈ (runMain true (some d) fixCh).1 ∧
    MainEvent.printedSummary (countTree fixCh Ctx.other d)
      (verifyE (0, none) (processTree fixCh Ctx.other d)) ∈
        (runMain true (some d) fixCh).1 := by
  refine ⟨rfl, rfl, ?_, ?_⟩
  · exact List.mem_cons_of_mem _ (List.mem_cons_self _ _)
  · exact List.mem_cons_of_mem _ (List.mem_cons_of_mem _ (List.mem_cons_self _ _))

/-- C10: an empty attribute is treated as absent: when the latitude
(or longitude, or elevation) attribute is the empty string, the value
resolves from the same-named child's trimmed text, coerced with the
0.0 default only when that text fails to parse. -/
theorem claim_c10 (s : Element) :
    (getAttr s.attrib "latitude" = some "" →
      getAttr (force_station_numeric_attrs s).1.attrib "latitude" =
        some (norm_num_or_default (get_child_text s "latitude") "0.0")) ∧
    (getAttr s.attrib "longitude" = some "" →
      getAttr (force_station_numeric_attrs s).1.attrib "longitude" =
        some (norm_num_or_default (get_child_text s "longitude") "0.0")) ∧
    (getAttr s.attrib "elevation" = some "" →
      getAttr (force_station_numeric_attrs s).1.attrib "elevation" =
        some (norm_num_or_default (get_child_text s "elevation") "0.0")) := by
  refine ⟨fun h => ?_, fun h => ?_, fun h => ?_⟩
  · rw [force_getAttr_lat, coercedVal_empty_attr s _ h]
  · rw [force_getAttr_lon, coercedVal_empty_attr s _ h]
  · rw [force_getAttr_ele, coercedVal_empty_attr s _ h]

/-- C10, witness: a station whose three geographic attributes are empty
takes latitude 45.5 from its child, and elevation 0.0 because the child
text x is not numeric. -/
theorem claim_c10_witness :
    getAttr exSta10.attrib "latitude" = some "" ∧
    getAttr (force_station_numeric_attrs exSta10).1.attrib "latitude" = some "45.5" ∧
    getAttr (force_station_numeric_attrs exSta10).1.attrib "elevation" = some "0.0" := by
  refine ⟨by decide, ?_, ?_⟩
  · rw [(claim_c10 exSta10).1 (by decide)]
    decide
  · rw [(claim_c10 exSta10).2.2 (by decide)]
    decide

end SC3
